import Mathlib

/-!
Shallow embedding of `src/pylorax/api/compose.py` (lorax-28.14.70).

The module prepares an image compose: it customizes a kickstart template from a
blueprint ("recipe"), appends per-user and per-group directives, validates the compose
type against a per-architecture denylist, merges the blueprint package set, and
assembles the final kickstart file.

Modelling conventions:
* Python dicts with a fixed set of optional keys become structures of `Option`
  fields; a missing key is `none`.
* The kickstart-parser based merge helpers (`bootloader_append`, `timezone_cmd`,
  `lang_cmd`, `keyboard_cmd`, `firewall_cmd`, `services_cmd`) delegate to the
  external pykickstart library; they are abstracted as a bundle of opaque
  functions (`MergeFns`) that `customize_ks_template` receives, exactly as the
  source consults them through its `commands` table.
* Text is handled line-by-line: a template is a `List String` of its lines
  (Python `splitlines`), and each `print(..., file=output)` appends one line.
* `raise` becomes `Except.error`.
-/

namespace LoraxCompose

/-- Python `str.startswith`, on the character lists of the two strings. -/
def pyStartswith (s p : String) : Bool := p.data.isPrefixOf s.data

/-- `customizations.timezone`: `{ timezone?: string, ntpservers?: [string] }`. -/
structure TimezoneS where
  timezone : Option String
  ntpservers : Option (List String)

/-- `customizations.kernel`: `{ append?: string }`. -/
structure KernelS where
  append : Option String

/-- `customizations.locale`: `{ languages?: [string], keyboard?: string }`. -/
structure LocaleS where
  languages : Option (List String)
  keyboard : Option String

/-- `customizations.firewall.services`: `{ enabled?: [string], disabled?: [string] }`. -/
structure FirewallServicesS where
  enabled : Option (List String)
  disabled : Option (List String)

/-- `customizations.firewall`: `{ ports?: [string], services?: {...} }`. -/
structure FirewallTableS where
  ports : Option (List String)
  services : Option FirewallServicesS

/-- `customizations.services`: `{ enabled?: [string], disabled?: [string] }`. -/
structure ServicesTableS where
  enabled : Option (List String)
  disabled : Option (List String)

/-- One entry of the legacy `customizations.sshkey` list: `{ user?, key? }`
(the source checks both keys and skips the entry when either is missing). -/
structure SshkeyEntry where
  user : Option String
  key : Option String

/-- One entry of `customizations.user`; only `name` is semantically required. -/
structure KsUser where
  name : Option String
  key : Option String
  password : Option String
  home : Option String
  shell : Option String
  uid : Option Int
  gid : Option Int
  description : Option String
  groups : Option (List String)

/-- One entry of `customizations.group`. -/
structure KsGroup where
  name : Option String
  gid : Option Int

/-- The `customizations` table of a recipe. -/
structure Customizations where
  hostname : Option String
  kernel : Option KernelS
  timezone : Option TimezoneS
  locale : Option LocaleS
  firewall : Option FirewallTableS
  services : Option ServicesTableS
  sshkey : Option (List SshkeyEntry)
  user : Option (List KsUser)
  group : Option (List KsGroup)

/-- The `customizations` value of a recipe: TOML `[customizations]` yields a
table, the incorrect `[[customizations]]` yields a list of tables. -/
inductive CustomizationsValue
  | table (c : Customizations)
  | list (cs : List Customizations)

/-- A recipe (blueprint), restricted to the parts `compose.py` reads. -/
structure Recipe where
  customizations : Option CustomizationsValue

/-- The getter functions test string keys with `in`; on a list-valued
`customizations` every key test fails (Python `"kernel" in [..]` is a list
membership test), so they all fall back to their defaults. -/
def Recipe.customTable (r : Recipe) : Option Customizations :=
  match r.customizations with
  | some (CustomizationsValue.table c) => some c
  | _ => none

/-- `get_kernel_append`: `customizations.kernel.append`, else `""`. -/
def get_kernel_append (r : Recipe) : String :=
  match r.customTable with
  | some c =>
    match c.kernel with
    | some k => k.append.getD ""
    | none => ""
  | none => ""

/-- `get_timezone_settings`: the `customizations.timezone` dict, else `{}`. -/
def get_timezone_settings (r : Recipe) : TimezoneS :=
  match r.customTable with
  | some c => c.timezone.getD ⟨none, none⟩
  | none => ⟨none, none⟩

/-- Python truthiness of the `get_timezone_settings` dict: nonempty. -/
def TimezoneS.truthy (t : TimezoneS) : Bool := t.timezone.isSome || t.ntpservers.isSome

/-- `get_languages`: `customizations.locale.languages`, else `[]`. -/
def get_languages (r : Recipe) : List String :=
  match r.customTable with
  | some c =>
    match c.locale with
    | some lo => lo.languages.getD []
    | none => []
  | none => []

/-- `get_keyboard_layout`: `customizations.locale.keyboard`; the source returns
the empty list `[]` when it is missing, modelled as `none`. -/
def get_keyboard_layout (r : Recipe) : Option String :=
  match r.customTable with
  | some c =>
    match c.locale with
    | some lo => lo.keyboard
    | none => none
  | none => none

/-- Python truthiness of the `get_keyboard_layout` result: `[]` and `""` are
falsy, a nonempty layout string is truthy. -/
def kbTruthy : Option String → Bool
  | none => false
  | some s => decide (s ≠ "")

/-- The settings dict built by `get_firewall_settings`. -/
structure FirewallS where
  ports : List String
  enabled : List String
  disabled : List String

/-- `get_firewall_settings`: always returns a dict with the three keys
`ports`, `enabled`, `disabled` (hence always truthy in Python). -/
def get_firewall_settings (r : Recipe) : FirewallS :=
  match r.customTable with
  | some c =>
    match c.firewall with
    | some fw =>
      { ports := fw.ports.getD []
        enabled := match fw.services with
          | some s => s.enabled.getD []
          | none => []
        disabled := match fw.services with
          | some s => s.disabled.getD []
          | none => [] }
    | none => ⟨[], [], []⟩
  | none => ⟨[], [], []⟩

/-- The settings dict built by `get_services`. -/
structure ServicesS where
  enabled : List String
  disabled : List String

/-- Python `sorted` on a list of strings. -/
def sortedStrings (l : List String) : List String :=
  l.mergeSort (fun a b => decide (a ≤ b))

/-- `get_services`: always returns a dict with keys `enabled`, `disabled`
(hence always truthy in Python); present lists are sorted. -/
def get_services (r : Recipe) : ServicesS :=
  match r.customTable with
  | some c =>
    match c.services with
    | some s => ⟨sortedStrings (s.enabled.getD []), sortedStrings (s.disabled.getD [])⟩
    | none => ⟨[], []⟩
  | none => ⟨[], []⟩

/-- `get_default_services`: `"services"` when the blueprint enables or disables
any service, else `""`. -/
def get_default_services (r : Recipe) : String :=
  if (get_services r).enabled.isEmpty && (get_services r).disabled.isEmpty then ""
  else "services"

/-- The pykickstart-backed merge helpers, abstracted (they parse a kickstart
line, splice the blueprint value in, and re-serialize the line). -/
structure MergeFns where
  bootloader_append : String → String → String
  timezone_cmd : String → TimezoneS → String
  lang_cmd : String → List String → String
  keyboard_cmd : String → String → String
  firewall_cmd : String → FirewallS → String
  services_cmd : String → ServicesS → String

/-- One entry of the `commands` table in `customize_ks_template`:
`[NEW-COMMAND-FUNC, NEW-VALUE, DEFAULT, REPLACE]`, with the value already
applied to the command function and its Python truthiness precomputed. -/
structure KsCommand where
  name : String
  applyCmd : String → String
  truthy : Bool
  dflt : String
  replace : Bool

/-- The `commands` dict of `customize_ks_template`, in insertion order. -/
def mkCommands (fns : MergeFns) (r : Recipe) : List KsCommand :=
  [ { name := "bootloader"
      applyCmd := fun line => fns.bootloader_append line (get_kernel_append r)
      truthy := decide (get_kernel_append r ≠ "")
      dflt := "bootloader --location=none"
      replace := true },
    { name := "timezone"
      applyCmd := fun line => fns.timezone_cmd line (get_timezone_settings r)
      truthy := (get_timezone_settings r).truthy
      dflt := "timezone UTC"
      replace := false },
    { name := "lang"
      applyCmd := fun line => fns.lang_cmd line (get_languages r)
      truthy := decide (get_languages r ≠ [])
      dflt := "lang en_US.UTF-8"
      replace := true },
    { name := "keyboard"
      applyCmd := fun line => fns.keyboard_cmd line ((get_keyboard_layout r).getD "")
      truthy := kbTruthy (get_keyboard_layout r)
      dflt := "keyboard --xlayouts us --vckeymap us"
      replace := true },
    { name := "firewall"
      applyCmd := fun line => fns.firewall_cmd line (get_firewall_settings r)
      truthy := true
      dflt := "firewall --enabled"
      replace := true },
    { name := "services"
      applyCmd := fun line => fns.services_cmd line (get_services r)
      truthy := true
      dflt := get_default_services r
      replace := true } ]

/-- The inner `for cmd in commands` loop: first command whose name is a
prefix of the line (the loop `break`s on the first match). -/
def findCommand (cmds : List KsCommand) (line : String) : Option KsCommand :=
  cmds.find? (fun c => pyStartswith line c.name)

/-- The line written for one template line: the merged command when a matching
command has a truthy value and `REPLACE` is set, else the line as-is. -/
def walkLine (cmds : List KsCommand) (line : String) : String :=
  match findCommand cmds line with
  | some c => if c.truthy && c.replace then c.applyCmd line else line
  | none => line

/-- The `found` keys accumulated by the walk: one per line that matched. -/
def walkFound (cmds : List KsCommand) (lines : List String) : List String :=
  lines.filterMap (fun line => Option.map KsCommand.name (findCommand cmds line))

/-- The "Write out defaults for the ones not found" loop: for every command not
found, `new_command(default, value)` when the value is truthy and the default
is nonempty, else the default itself when nonempty. -/
def writeDefaults (cmds : List KsCommand) (found : List String) : List String :=
  cmds.filterMap (fun c =>
    if c.name ∈ found then none
    else if c.truthy && !(c.dflt == "") then some (c.applyCmd c.dflt)
    else if !(c.dflt == "") then some c.dflt
    else none)

/-- `customize_ks_template(ks_template, recipe)`: walk the template lines,
then prepend the synthesized defaults (`defaults.getvalue() + output.getvalue()`). -/
def customize_ks_template (fns : MergeFns) (ks_template : List String) (r : Recipe) :
    List String :=
  let cmds := mkCommands fns r
  writeDefaults cmds (walkFound cmds ks_template) ++ ks_template.map (walkLine cmds)

/-- The pre-crypted password test shared by `write_ks_root` and
`write_ks_user`: `any(password.startswith(p) for p in ["$2b$", "$6$", "$5$"])`. -/
def isCryptedPassword (pw : String) : Bool :=
  pyStartswith pw "$2b$" || pyStartswith pw "$6$" || pyStartswith pw "$5$"

/-- `write_ks_root(f, user)`: the lines written for a root user and the
returned `wrote_rootpw` flag.  The caller guarantees `name` is present. -/
def write_ks_root (user : KsUser) : List String × Bool :=
  let keyLines : List String :=
    match user.key with
    | some k => ["sshkey --user " ++ user.name.getD "" ++ " \"" ++ k ++ "\""]
    | none => []
  match user.password with
  | some pw =>
    if isCryptedPassword pw then
      (keyLines ++ ["rootpw --iscrypted \"" ++ pw ++ "\""], true)
    else
      (keyLines ++ ["rootpw --plaintext \"" ++ pw ++ "\""], true)
  | none => (keyLines, false)

/-- The optional `--homedir` fragment of the `user` line. -/
def userHomePart (user : KsUser) : String :=
  match user.home with
  | some h => " --homedir " ++ h
  | none => ""

/-- The optional password fragment of the `user` line. -/
def userPasswordPart (user : KsUser) : String :=
  match user.password with
  | some pw =>
    (if isCryptedPassword pw then " --iscrypted" else " --plaintext")
      ++ " --password \"" ++ pw ++ "\""
  | none => ""

/-- The optional `--shell` fragment of the `user` line. -/
def userShellPart (user : KsUser) : String :=
  match user.shell with
  | some s => " --shell " ++ s
  | none => ""

/-- The optional `--uid` fragment of the `user` line. -/
def userUidPart (user : KsUser) : String :=
  match user.uid with
  | some u => " --uid " ++ toString u
  | none => ""

/-- The optional `--gid` fragment of the `user` line. -/
def userGidPart (user : KsUser) : String :=
  match user.gid with
  | some g => " --gid " ++ toString g
  | none => ""

/-- The optional `--gecos` fragment of the `user` line. -/
def userDescriptionPart (user : KsUser) : String :=
  match user.description with
  | some d => " --gecos \"" ++ d ++ "\""
  | none => ""

/-- The optional `--groups` fragment of the `user` line. -/
def userGroupsPart (user : KsUser) : String :=
  match user.groups with
  | some gs => " --groups " ++ String.intercalate "," gs
  | none => ""

/-- `write_ks_user(f, user)`: an `sshkey` line when a key is present, then the
`user --name ...` line assembled by the sequence of conditional writes. -/
def write_ks_user (user : KsUser) : List String :=
  let keyLines : List String :=
    match user.key with
    | some k => ["sshkey --user " ++ user.name.getD "" ++ " \"" ++ k ++ "\""]
    | none => []
  keyLines ++
    ["user --name " ++ user.name.getD "" ++ userHomePart user ++ userPasswordPart user
      ++ userShellPart user ++ userUidPart user ++ userGidPart user
      ++ userDescriptionPart user ++ userGroupsPart user]

/-- `write_ks_group(f, group)`: fails when `name` is missing, else writes
`group --name <name>` with `--gid` appended only when `gid` is present. -/
def write_ks_group (group : KsGroup) : Except String String :=
  match group.name with
  | none => Except.error "group entry requires a name"
  | some n =>
    Except.ok ("group --name " ++ n ++
      (match group.gid with
       | some g => " --gid " ++ toString g
       | none => ""))

/-- The `user` loop of `add_customizations`: a user without `name` is fatal;
`root` goes through `write_ks_root` (overwriting `wrote_rootpw` with its
result); other users go through `write_ks_user` and their name is appended to
the `user_groups` accumulator.  Returns (lines, user_groups, wrote_rootpw). -/
def processUsers (users : List KsUser) (ugs : List String) (wrote : Bool) :
    Except String (List String × List String × Bool) :=
  match users with
  | [] => Except.ok ([], ugs, wrote)
  | u :: rest =>
    match u.name with
    | none => Except.error "user entry requires a name"
    | some n =>
      if n = "root" then
        (processUsers rest ugs (write_ks_root u).2).map
          (fun x => ((write_ks_root u).1 ++ x.1, x.2))
      else
        (processUsers rest (ugs ++ [n]) wrote).map
          (fun x => (write_ks_user u ++ x.1, x.2))

/-- The `group` loop of `add_customizations`.  The source evaluates
`group["name"] not in user_groups` first, so a group without `name` raises a
`KeyError` there (before `write_ks_group`'s own check could fire); a group
whose name was already created by a user is skipped with a warning. -/
def processGroups (ugs : List String) (groups : List KsGroup) :
    Except String (List String) :=
  match groups with
  | [] => Except.ok []
  | g :: rest =>
    match g.name with
    | none => Except.error "KeyError: name"
    | some n =>
      if n ∈ ugs then processGroups ugs rest
      else
        match write_ks_group g with
        | Except.error e => Except.error e
        | Except.ok line =>
          match processGroups ugs rest with
          | Except.error e => Except.error e
          | Except.ok ls => Except.ok (line :: ls)

/-- The legacy `customizations.sshkey` loop: entries missing `user` or `key`
are skipped (with a logged error); well-formed entries yield their line. -/
def sshkeyLines (entries : List SshkeyEntry) : List String :=
  entries.filterMap (fun e =>
    match e.user, e.key with
    | some u, some k => some ("sshkey --user " ++ u ++ " \"" ++ k ++ "\"")
    | _, _ => none)

/-- The body of `add_customizations` once the customizations table is in hand:
hostname, legacy sshkey entries, users, groups, and a final `rootpw --lock`
when no root password was written. -/
def addCustomizationsTable (c : Customizations) : Except String (List String) :=
  match (match c.user with
         | some users => processUsers users [] false
         | none => Except.ok ([], [], false)) with
  | Except.error e => Except.error e
  | Except.ok userRes =>
    match (match c.group with
           | some groups => processGroups userRes.2.1 groups
           | none => Except.ok []) with
    | Except.error e => Except.error e
    | Except.ok groupLines =>
      Except.ok ((match c.hostname with
          | some h => ["network --hostname=" ++ h]
          | none => [])
        ++ (match c.sshkey with
            | some entries => sshkeyLines entries
            | none => [])
        ++ userRes.1 ++ groupLines ++
        (if userRes.2.2 then [] else ["rootpw --lock"]))

/-- `add_customizations(f, recipe)`: without customizations only
`rootpw --lock` is written; a list-valued customizations (the tolerated
`[[customizations]]` form) is replaced by its first element (`customizations[0]`,
an `IndexError` when the list is empty). -/
def add_customizations (r : Recipe) : Except String (List String) :=
  match r.customizations with
  | none => Except.ok ["rootpw --lock"]
  | some (CustomizationsValue.table c) => addCustomizationsTable c
  | some (CustomizationsValue.list []) => Except.error "IndexError: list index out of range"
  | some (CustomizationsValue.list (c :: _)) => addCustomizationsTable c

/-- The `disable_map` of `compose_types`: compose types not supported on an
architecture; an unlisted architecture disables nothing. -/
def disableMap (machine : String) : List String :=
  if machine = "arm" then ["alibaba", "ami", "google", "hyper-v", "vhd", "vmdk"]
  else if machine = "armhfp" then ["alibaba", "ami", "google", "hyper-v", "vhd", "vmdk"]
  else if machine = "aarch64" then ["alibaba", "google", "hyper-v", "vhd", "vmdk"]
  else if machine = "ppc" then ["alibaba", "ami", "google", "hyper-v", "vhd", "vmdk"]
  else if machine = "ppc64" then ["alibaba", "ami", "google", "hyper-v", "vhd", "vmdk"]
  else if machine = "ppc64le" then ["alibaba", "ami", "google", "hyper-v", "vhd", "vmdk"]
  else if machine = "s390" then ["alibaba", "ami", "google", "hyper-v", "vhd", "vmdk"]
  else if machine = "s390x" then ["alibaba", "ami", "google", "hyper-v", "vhd", "vmdk"]
  else []

/-- `compose_types(share_dir)`: the sorted kickstart basenames from
`composer/*.ks` (here a parameter, as the set comes from the filesystem),
each paired with `t not in arch_disabled` for `os.uname().machine`. -/
def compose_types (ksTypes : List String) (machine : String) : List (String × Bool) :=
  (sortedStrings ksTypes).map (fun t => (t, decide (t ∉ disableMap machine)))

/-- The compose-type validation at the top of `start_build`:
`dict(compose_types(share_dir)).get(compose_type)` is `None` for an unknown
type (a `RuntimeError`), `False` for a type disabled on this architecture
(a `RuntimeError`), `True` otherwise. -/
def startBuildTypeCheck (ksTypes : List String) (machine : String)
    (compose_type : String) : Except String Unit :=
  match (compose_types ksTypes machine).lookup compose_type with
  | none => Except.error ("Invalid compose type (" ++ compose_type ++ ")")
  | some false => Except.error ("Compose type '" ++ compose_type ++ "' is disabled on this architecture")
  | some true => Except.ok ()

/-- `get_extra_pkgs(dbo, share_dir, compose_type)`: every type other than
`live-iso` contributes no extra packages; for `live-iso` the result comes from
the external `LiveTemplateRunner` over `live/live-install.tmpl`, supplied here
as the parameter `liveInstallPkgs`. -/
def get_extra_pkgs (compose_type : String) (liveInstallPkgs : List String) :
    List String :=
  if compose_type ≠ "live-iso" then [] else liveInstallPkgs

/-- The sort key of the project list: the lowercased package name
(`key=lambda p: p[0].lower()`). -/
def lowerNameLe (a b : String × String) : Bool := decide (a.1.toLower ≤ b.1.toLower)

/-- The merged project list of `start_build`:
`sorted(set(module_nver + package_nver), key=lambda p: p[0].lower())` after
`package_nver.extend([(name, "*") for name in extra_pkgs])`.  The Python `set`
is modelled by `List.dedup` (its iteration order is unspecified; the sort key
decides the order up to ties). -/
def buildProjects (module_nver package_nver : List (String × String))
    (extra_pkgs : List String) : List (String × String) :=
  ((module_nver ++ (package_nver ++ extra_pkgs.map (fun n => (n, "*")))).dedup).mergeSort lowerNameLe

/-- The per-type settings dict returned by `compose_args`.  Python `None`
becomes `none`; the `image_type` value `False` ("instead of None because of
TOML") also becomes `none`; keys absent from some dicts (`fs_label`,
`iso_only`, `iso_name`, `compression`, `compress_args`) are `Option`s that are
`none` when the key is absent. -/
structure ComposeArgs where
  make_iso : Bool
  make_disk : Bool
  make_fsimage : Bool
  make_appliance : Bool
  make_ami : Bool
  make_tar : Bool
  make_tar_disk : Bool
  make_pxe_live : Bool
  make_ostree_live : Bool
  make_oci : Bool
  make_vagrant : Bool
  ostree : Bool
  live_rootfs_keep_size : Bool
  live_rootfs_size : Nat
  image_size_align : Nat
  image_type : Option String
  qemu_args : List String
  image_name : String
  tar_disk_name : Option String
  image_only : Bool
  app_name : Option String
  app_template : Option String
  app_file : Option String
  fs_label : Option String
  iso_only : Option Bool
  iso_name : Option String
  compression : Option String
  compress_args : Option (List String)

/-- Modelled from the spec: `default_image_name(compression, basename)` lives in
`pylorax.imgutils`, which is not part of the sources under review; per the
spec's per-type table the `tar` image name is `root.tar.xz`, i.e. the
compression suffix is appended to the base name. -/
def default_image_name (compression basename : String) : String :=
  basename ++ "." ++ compression

/-- `compose_args(compose_type)`: the `_MAP` lookup (a `KeyError`, modelled as
`none`, for an unknown type). -/
def compose_args (compose_type : String) : Option ComposeArgs :=
  if compose_type = "tar" then some
    { make_iso := false, make_disk := false, make_fsimage := false
      make_appliance := false, make_ami := false, make_tar := true
      make_tar_disk := false, make_pxe_live := false, make_ostree_live := false
      make_oci := false, make_vagrant := false, ostree := false
      live_rootfs_keep_size := false, live_rootfs_size := 0, image_size_align := 0
      image_type := none, qemu_args := []
      image_name := default_image_name "xz" "root.tar"
      tar_disk_name := none, image_only := true
      app_name := none, app_template := none, app_file := none
      fs_label := none, iso_only := none, iso_name := none
      compression := none, compress_args := none }
  else if compose_type = "live-iso" then some
    { make_iso := true, make_disk := false, make_fsimage := false
      make_appliance := false, make_ami := false, make_tar := false
      make_tar_disk := false, make_pxe_live := false, make_ostree_live := false
      make_oci := false, make_vagrant := false, ostree := false
      live_rootfs_keep_size := false, live_rootfs_size := 0, image_size_align := 0
      image_type := none, qemu_args := []
      image_name := "live.iso", tar_disk_name := none
      fs_label := some "Anaconda", image_only := false
      app_name := none, app_template := none, app_file := none
      iso_only := some true, iso_name := some "live.iso"
      compression := none, compress_args := none }
  else if compose_type = "partitioned-disk" then some
    { make_iso := false, make_disk := true, make_fsimage := false
      make_appliance := false, make_ami := false, make_tar := false
      make_tar_disk := false, make_pxe_live := false, make_ostree_live := false
      make_oci := false, make_vagrant := false, ostree := false
      live_rootfs_keep_size := false, live_rootfs_size := 0, image_size_align := 0
      image_type := none, qemu_args := []
      image_name := "disk.img", tar_disk_name := none
      fs_label := some "", image_only := true
      app_name := none, app_template := none, app_file := none
      iso_only := none, iso_name := none
      compression := none, compress_args := none }
  else if compose_type = "qcow2" then some
    { make_iso := false, make_disk := true, make_fsimage := false
      make_appliance := false, make_ami := false, make_tar := false
      make_tar_disk := false, make_pxe_live := false, make_ostree_live := false
      make_oci := false, make_vagrant := false, ostree := false
      live_rootfs_keep_size := false, live_rootfs_size := 0, image_size_align := 0
      image_type := some "qcow2", qemu_args := []
      image_name := "disk.qcow2", tar_disk_name := none
      fs_label := some "", image_only := true
      app_name := none, app_template := none, app_file := none
      iso_only := none, iso_name := none
      compression := none, compress_args := none }
  else if compose_type = "ext4-filesystem" then some
    { make_iso := false, make_disk := false, make_fsimage := true
      make_appliance := false, make_ami := false, make_tar := false
      make_tar_disk := false, make_pxe_live := false, make_ostree_live := false
      make_oci := false, make_vagrant := false, ostree := false
      live_rootfs_keep_size := false, live_rootfs_size := 0, image_size_align := 0
      image_type := none, qemu_args := []
      image_name := "filesystem.img", tar_disk_name := none
      fs_label := some "", image_only := true
      app_name := none, app_template := none, app_file := none
      iso_only := none, iso_name := none
      compression := none, compress_args := none }
  else if compose_type = "ami" then some
    { make_iso := false, make_disk := true, make_fsimage := false
      make_appliance := false, make_ami := false, make_tar := false
      make_tar_disk := false, make_pxe_live := false, make_ostree_live := false
      make_oci := false, make_vagrant := false, ostree := false
      live_rootfs_keep_size := false, live_rootfs_size := 0, image_size_align := 0
      image_type := none, qemu_args := []
      image_name := "disk.ami", tar_disk_name := none
      fs_label := some "", image_only := true
      app_name := none, app_template := none, app_file := none
      iso_only := none, iso_name := none
      compression := none, compress_args := none }
  else if compose_type = "vhd" then some
    { make_iso := false, make_disk := true, make_fsimage := false
      make_appliance := false, make_ami := false, make_tar := false
      make_tar_disk := false, make_pxe_live := false, make_ostree_live := false
      make_oci := false, make_vagrant := false, ostree := false
      live_rootfs_keep_size := false, live_rootfs_size := 0, image_size_align := 0
      image_type := some "vpc", qemu_args := ["-o", "subformat=fixed,force_size"]
      image_name := "disk.vhd", tar_disk_name := none
      fs_label := some "", image_only := true
      app_name := none, app_template := none, app_file := none
      iso_only := none, iso_name := none
      compression := none, compress_args := none }
  else if compose_type = "vmdk" then some
    { make_iso := false, make_disk := true, make_fsimage := false
      make_appliance := false, make_ami := false, make_tar := false
      make_tar_disk := false, make_pxe_live := false, make_ostree_live := false
      make_oci := false, make_vagrant := false, ostree := false
      live_rootfs_keep_size := false, live_rootfs_size := 0, image_size_align := 0
      image_type := some "vmdk", qemu_args := []
      image_name := "disk.vmdk", tar_disk_name := none
      fs_label := some "", image_only := true
      app_name := none, app_template := none, app_file := none
      iso_only := none, iso_name := none
      compression := none, compress_args := none }
  else if compose_type = "openstack" then some
    { make_iso := false, make_disk := true, make_fsimage := false
      make_appliance := false, make_ami := false, make_tar := false
      make_tar_disk := false, make_pxe_live := false, make_ostree_live := false
      make_oci := false, make_vagrant := false, ostree := false
      live_rootfs_keep_size := false, live_rootfs_size := 0, image_size_align := 0
      image_type := some "qcow2", qemu_args := []
      image_name := "disk.qcow2", tar_disk_name := none
      fs_label := some "", image_only := true
      app_name := none, app_template := none, app_file := none
      iso_only := none, iso_name := none
      compression := none, compress_args := none }
  else if compose_type = "google" then some
    { make_iso := false, make_disk := true, make_fsimage := false
      make_appliance := false, make_ami := false, make_tar := false
      make_tar_disk := true, make_pxe_live := false, make_ostree_live := false
      make_oci := false, make_vagrant := false, ostree := false
      live_rootfs_keep_size := false, live_rootfs_size := 0, image_size_align := 1024
      image_type := none, qemu_args := []
      image_name := "disk.tar.gz", tar_disk_name := some "disk.raw"
      compression := some "gzip", compress_args := some ["-9"]
      fs_label := some "", image_only := true
      app_name := none, app_template := none, app_file := none
      iso_only := none, iso_name := none }
  else if compose_type = "alibaba" then some
    { make_iso := false, make_disk := true, make_fsimage := false
      make_appliance := false, make_ami := false, make_tar := false
      make_tar_disk := false, make_pxe_live := false, make_ostree_live := false
      make_oci := false, make_vagrant := false, ostree := false
      live_rootfs_keep_size := false, live_rootfs_size := 0, image_size_align := 0
      image_type := some "qcow2", qemu_args := []
      image_name := "disk.qcow2", tar_disk_name := none
      fs_label := some "", image_only := true
      app_name := none, app_template := none, app_file := none
      iso_only := none, iso_name := none
      compression := none, compress_args := none }
  else none

/-- The root-partition size written by `start_build`, in MiB:
`installed_size = int((installed_size+template_size)) * 1.2` followed by
`ceil(installed_size / 1024**2)`.  The Python float literal `1.2` is modelled
as the exact rational `6/5`. -/
def partSizeCode (installed_size template_size : Nat) : Nat :=
  ⌈(((installed_size + template_size : Nat) : ℚ) * (6 / 5)) / ((1024 : ℚ) ^ 2)⌉₊

/-- The spec's disk sizing, first step:
`partition_bytes = ⌈1.2 × (installed_size + template_size)⌉`. -/
def partSizeSpecBytes (installed_size template_size : Nat) : Nat :=
  ⌈((installed_size + template_size : Nat) : ℚ) * (6 / 5)⌉₊

/-- The spec's disk sizing, second step: `ceil(partition_bytes / MiB)`. -/
def partSizeSpecMiB (installed_size template_size : Nat) : Nat :=
  ⌈((partSizeSpecBytes installed_size template_size : Nat) : ℚ) / ((1024 : ℚ) ^ 2)⌉₊

/-- One `repo --name="composer-N" ...` line of the final kickstart. -/
def repoLine (idx : Nat) (args : String) : String :=
  "repo --name=\"composer-" ++ toString idx ++ "\" " ++ args

/-- The optional `gitrpms` repo line of the final kickstart. -/
def gitrpmRepoLines : Option String → List String
  | some p => ["repo --name=\"gitrpms\" --baseurl=\"file://" ++ p ++ "\""]
  | none => []

/-- The body of `final-kickstart.ks` as written by `start_build` (one element
per written record): the `url` line, one `repo` line per additional source, the
optional `gitrpms` repo, `clearpart`, the root `part` line, the customized
template, one line per resolved dep NEVRA, one line per git-rpm package, the
closing `%end`, and the post-`%end` customizations. -/
def finalKickstartLines (fns : MergeFns) (urlArgs : String)
    (extraRepoArgs : List String) (gitrpmRepo : Option String)
    (installed_size template_size : Nat) (ks_template : List String) (r : Recipe)
    (depNevras : List String) (gitrpmNames : List String) :
    Except String (List String) :=
  match add_customizations r with
  | Except.error e => Except.error e
  | Except.ok post =>
    Except.ok (["url " ++ urlArgs]
      ++ (extraRepoArgs.enum.map (fun p => repoLine p.1 p.2))
      ++ gitrpmRepoLines gitrpmRepo
      ++ ["clearpart --all --initlabel"]
      ++ ["part / --size=" ++ toString (partSizeCode installed_size template_size)]
      ++ customize_ks_template fns ks_template r
      ++ depNevras
      ++ gitrpmNames
      ++ ["%end"]
      ++ post)

/-- The root-partition line predicate used to state uniqueness. -/
def isPartSizeLine (l : String) : Bool := pyStartswith l "part / --size="

/-- A concrete recipe whose blueprint sets a timezone, for the witnesses. -/
def rcpTz : Recipe :=
  { customizations := some (CustomizationsValue.table
      { hostname := none
        kernel := none
        timezone := some { timezone := some "US/Eastern", ntpservers := none }
        locale := none
        firewall := none
        services := none
        sshkey := none
        user := none
        group := none }) }

/-- Concrete merge functions for the witnesses (any functions work; these tag
the line so merged lines are recognizable). -/
def tagFns : MergeFns :=
  { bootloader_append := fun line v => line ++ " --append=\"" ++ v ++ "\""
    timezone_cmd := fun line _ => line ++ " #tz"
    lang_cmd := fun line _ => line ++ " #lang"
    keyboard_cmd := fun line _ => line ++ " #kb"
    firewall_cmd := fun line _ => line ++ " #fw"
    services_cmd := fun line _ => line ++ " #svc" }

/-- A recipe with no customizations at all, for witnesses and counterexamples. -/
def emptyRecipe : Recipe := { customizations := none }

/-- The defaults step as the spec sentence literally reads: the merged default
is emitted whenever the blueprint-derived value is truthy, with no requirement
that the default line be non-empty. -/
def claimedDefaults (cmds : List KsCommand) (lines : List String) : List String :=
  cmds.filterMap (fun c =>
    if ∃ l ∈ lines, pyStartswith l c.name = true then none
    else if c.truthy then some (c.applyCmd c.dflt)
    else if c.dflt ≠ "" then some c.dflt
    else none)

/-- An empty customizations table, for witnesses. -/
def emptyCustoms : Customizations :=
  { hostname := none, kernel := none, timezone := none, locale := none
    firewall := none, services := none, sshkey := none, user := none
    group := none }

/-- A root user carrying only an ssh key, for witnesses. -/
def rootKeyUser : KsUser :=
  { name := some "root", key := some "KEYDATA", password := none, home := none
    shell := none, uid := none, gid := none, description := none, groups := none }

/-- A plain non-root user, for witnesses. -/
def bobUser : KsUser :=
  { name := some "bob", key := none, password := none, home := none
    shell := none, uid := none, gid := none, description := none, groups := none }

/-- A group clashing with `bobUser`, for witnesses. -/
def bobGroup : KsGroup := { name := some "bob", gid := none }

/-- A well-formed legacy sshkey entry, for witnesses. -/
def sshEntryGood : SshkeyEntry := { user := some "alice", key := some "AAAA" }

/-- A malformed legacy sshkey entry (no key), for witnesses. -/
def sshEntryNoKey : SshkeyEntry := { user := some "bob", key := none }

/-! ### Basic facts about `pyStartswith` -/

theorem pyStartswith_iff {s p : String} : pyStartswith s p = true ↔ p.data <+: s.data := by
  simp [pyStartswith, List.isPrefixOf_iff_prefix]

theorem pyStartswith_append_self (p x : String) : pyStartswith (p ++ x) p = true := by
  rw [pyStartswith_iff, String.data_append]
  exact List.prefix_append p.data x.data

/-- Two prefixes of one string are comparable, so a line cannot start with two
incomparable directive names. -/
theorem namesConflict {a b : String} (hab : ¬ a.data <+: b.data)
    (hba : ¬ b.data <+: a.data) (l : String) :
    ¬(pyStartswith l a = true ∧ pyStartswith l b = true) := by
  rintro ⟨ha, hb⟩
  rcases List.prefix_or_prefix_of_prefix (pyStartswith_iff.mp ha) (pyStartswith_iff.mp hb) with h | h
  · exact hab h
  · exact hba h

theorem not_pyStartswith_of_head_ne {s p : String} {c d : Char}
    (hs : s.data.head? = some c) (hp : p.data.head? = some d) (hcd : c ≠ d) :
    pyStartswith s p = false := by
  cases hsd : s.data with
  | nil => simp [hsd] at hs
  | cons x xs =>
    cases hpd : p.data with
    | nil => simp [hpd] at hp
    | cons y ys =>
      rw [hsd] at hs
      rw [hpd] at hp
      simp only [List.head?_cons, Option.some.injEq] at hs hp
      simp only [pyStartswith, hsd, hpd, List.isPrefixOf_cons₂]
      subst hs
      subst hp
      simp [beq_eq_false_iff_ne, hcd, Ne.symm hcd]

theorem head_data_append {a : String} (x : String) {c : Char}
    (h : a.data.head? = some c) : (a ++ x).data.head? = some c := by
  rw [String.data_append]
  cases had : a.data with
  | nil => simp [had] at h
  | cons y ys =>
    rw [had] at h
    simpa using h

/-! ### Which command the walk selects for a line -/

/-- No string starts with the names of two distinct commands of the list. -/
def NamesOk (cmds : List KsCommand) : Prop :=
  List.Pairwise
    (fun c d => ∀ l : String,
      ¬(pyStartswith l c.name = true ∧ pyStartswith l d.name = true)) cmds

theorem findCommand_name_iff {cmds : List KsCommand} (hok : NamesOk cmds)
    {nm : String} (hmem : nm ∈ cmds.map KsCommand.name) (l : String) :
    Option.map KsCommand.name (findCommand cmds l) = some nm ↔
      pyStartswith l nm = true := by
  induction cmds with
  | nil => simp at hmem
  | cons c rest ih =>
    have hok' := List.pairwise_cons.mp hok
    cases hc : pyStartswith l c.name with
    | true =>
      have hfind : findCommand (c :: rest) l = some c :=
        List.find?_cons_of_pos _ hc
      rw [hfind]
      simp only [Option.map_some', Option.some.injEq]
      constructor
      · intro h
        rw [← h]
        exact hc
      · intro h
        by_cases hnm : c.name = nm
        · exact hnm
        · rcases List.mem_map.mp hmem with ⟨d, hd, hdnm⟩
          rcases List.mem_cons.mp hd with hd | hd
          · exact absurd (hd ▸ hdnm) hnm
          · exact absurd ⟨hc, hdnm.symm ▸ h⟩ (hok'.1 d hd l)
    | false =>
      have hfind : findCommand (c :: rest) l = findCommand rest l :=
        List.find?_cons_of_neg _ (by simp [hc])
      rw [hfind]
      rcases List.mem_map.mp hmem with ⟨d, hd, hdnm⟩
      rcases List.mem_cons.mp hd with hd | hd
      · -- nm is the head's name: the head did not match, and a later command
        -- producing the same name would conflict with the head
        subst hd
        rw [hdnm] at hc
        rw [hc]
        simp only [Bool.false_eq_true, iff_false]
        intro h
        rcases Option.map_eq_some'.mp h with ⟨e, he, hename⟩
        have he' : rest.find? (fun x => pyStartswith l x.name) = some e := he
        have hmatch0 := List.find?_some he'
        have hmatch : pyStartswith l e.name = true := hmatch0
        have hemem : e ∈ rest := List.mem_of_find?_eq_some he'
        exact hok'.1 e hemem l ⟨by rw [hdnm, ← hename]; exact hmatch, hmatch⟩
      · exact ih hok'.2 (List.mem_map.mpr ⟨d, hd, hdnm⟩)

theorem pairwiseDirectiveNames :
    List.Pairwise
      (fun a b : String => ∀ l : String,
        ¬(pyStartswith l a = true ∧ pyStartswith l b = true))
      ["bootloader", "timezone", "lang", "keyboard", "firewall", "services"] := by
  refine List.Pairwise.cons ?_ (List.Pairwise.cons ?_ (List.Pairwise.cons ?_
    (List.Pairwise.cons ?_ (List.Pairwise.cons ?_ (List.Pairwise.cons ?_
      List.Pairwise.nil))))) <;>
    · intro b hb
      fin_cases hb <;> exact namesConflict (by decide) (by decide)

theorem mkCommands_namesOk (fns : MergeFns) (r : Recipe) :
    NamesOk (mkCommands fns r) := by
  have hmap : (mkCommands fns r).map KsCommand.name =
      ["bootloader", "timezone", "lang", "keyboard", "firewall", "services"] := rfl
  have h := hmap ▸ pairwiseDirectiveNames
  exact List.pairwise_map.mp h

/-- A directive name is recorded as found exactly when some template line
starts with it. -/
theorem mem_walkFound_iff (fns : MergeFns) (r : Recipe) {nm : String}
    (hmem : nm ∈ (mkCommands fns r).map KsCommand.name) (lines : List String) :
    nm ∈ walkFound (mkCommands fns r) lines ↔
      ∃ l ∈ lines, pyStartswith l nm = true := by
  unfold walkFound
  rw [List.mem_filterMap]
  constructor
  · rintro ⟨l, hl, h⟩
    exact ⟨l, hl, (findCommand_name_iff (mkCommands_namesOk fns r) hmem l).mp h⟩
  · rintro ⟨l, hl, h⟩
    exact ⟨l, hl, (findCommand_name_iff (mkCommands_namesOk fns r) hmem l).mpr h⟩

/-! ### C1: an existing template timezone line wins -/

theorem walkLine_tz_invariant (fns : MergeFns) (g : String → TimezoneS → String)
    (r : Recipe) (l : String) :
    walkLine (mkCommands { fns with timezone_cmd := g } r) l
      = walkLine (mkCommands fns r) l := by
  unfold walkLine findCommand mkCommands
  cases h1 : pyStartswith l "bootloader" <;>
  cases h2 : pyStartswith l "timezone" <;>
  cases h3 : pyStartswith l "lang" <;>
  cases h4 : pyStartswith l "keyboard" <;>
  cases h5 : pyStartswith l "firewall" <;>
  cases h6 : pyStartswith l "services" <;>
    simp [List.find?, h1, h2, h3, h4, h5, h6]

theorem findName_tz_invariant (fns : MergeFns) (g : String → TimezoneS → String)
    (r : Recipe) (l : String) :
    Option.map KsCommand.name (findCommand (mkCommands { fns with timezone_cmd := g } r) l)
      = Option.map KsCommand.name (findCommand (mkCommands fns r) l) := by
  unfold findCommand mkCommands
  cases h1 : pyStartswith l "bootloader" <;>
  cases h2 : pyStartswith l "timezone" <;>
  cases h3 : pyStartswith l "lang" <;>
  cases h4 : pyStartswith l "keyboard" <;>
  cases h5 : pyStartswith l "firewall" <;>
  cases h6 : pyStartswith l "services" <;>
    simp [List.find?, h1, h2, h3, h4, h5, h6]

theorem walkFound_tz_invariant (fns : MergeFns) (g : String → TimezoneS → String)
    (r : Recipe) (tpl : List String) :
    walkFound (mkCommands { fns with timezone_cmd := g } r) tpl
      = walkFound (mkCommands fns r) tpl := by
  unfold walkFound
  induction tpl with
  | nil => rfl
  | cons l rest ih => simp [List.filterMap_cons, findName_tz_invariant fns g r l, ih]

theorem writeDefaults_tz_found (fns : MergeFns) (g : String → TimezoneS → String)
    (r : Recipe) (found : List String) (hf : "timezone" ∈ found) :
    writeDefaults (mkCommands { fns with timezone_cmd := g } r) found
      = writeDefaults (mkCommands fns r) found := by
  unfold writeDefaults mkCommands
  simp only [List.filterMap_cons, List.filterMap_nil]
  simp [hf]

/-- C1: if the kickstart template already contains a `timezone` line,
`customize_ks_template` passes that line through unchanged (`replace` is
`False` for `timezone`) even when the blueprint timezone settings are truthy —
the output does not depend on the timezone merge function at all; and when no
template line starts with `timezone` and the settings are truthy, the
blueprint settings take effect via the synthesized default line
`timezone_cmd("timezone UTC", settings)`. -/
theorem c1_timezone_template_line_wins (fns : MergeFns)
    (g : String → TimezoneS → String) (r : Recipe) (tpl tpl2 : List String)
    (h1 : ∃ l ∈ tpl, pyStartswith l "timezone" = true)
    (h2 : ∀ l ∈ tpl2, pyStartswith l "timezone" = false)
    (h3 : (get_timezone_settings r).truthy = true) :
    (∀ l ∈ tpl, pyStartswith l "timezone" = true →
        walkLine (mkCommands fns r) l = l ∧ l ∈ customize_ks_template fns tpl r)
    ∧ customize_ks_template { fns with timezone_cmd := g } tpl r
        = customize_ks_template fns tpl r
    ∧ fns.timezone_cmd "timezone UTC" (get_timezone_settings r)
        ∈ customize_ks_template fns tpl2 r := by
  have hmemtz : "timezone" ∈ (mkCommands fns r).map KsCommand.name := by
    simp [mkCommands]
  have hwalk : ∀ l : String, pyStartswith l "timezone" = true →
      walkLine (mkCommands fns r) l = l := by
    intro l h
    have hb : pyStartswith l "bootloader" = false := by
      cases hbc : pyStartswith l "bootloader"
      · rfl
      · exact absurd ⟨hbc, h⟩ (namesConflict (by decide) (by decide) l)
    have hfind : findCommand (mkCommands fns r) l = some
        { name := "timezone"
          applyCmd := fun line => fns.timezone_cmd line (get_timezone_settings r)
          truthy := (get_timezone_settings r).truthy
          dflt := "timezone UTC"
          replace := false } := by
      unfold findCommand mkCommands
      rw [List.find?_cons_of_neg _ (by simpa using hb)]
      rw [List.find?_cons_of_pos _ (by simpa using h)]
    unfold walkLine
    rw [hfind]
    simp
  refine ⟨?_, ?_, ?_⟩
  · intro l hl h
    refine ⟨hwalk l h, ?_⟩
    simp only [customize_ks_template]
    refine List.mem_append_right _ (List.mem_map.mpr ⟨l, hl, hwalk l h⟩)
  · have hfound : "timezone" ∈ walkFound (mkCommands fns r) tpl :=
      (mem_walkFound_iff fns r hmemtz tpl).mpr h1
    simp only [customize_ks_template]
    rw [walkFound_tz_invariant fns g r tpl]
    rw [writeDefaults_tz_found fns g r _ hfound]
    congr 1
    exact List.map_congr_left (fun l _ => walkLine_tz_invariant fns g r l)
  · have hnf : "timezone" ∉ walkFound (mkCommands fns r) tpl2 := by
      rw [mem_walkFound_iff fns r hmemtz tpl2]
      rintro ⟨l, hl, h⟩
      rw [h2 l hl] at h
      cases h
    have hmem : fns.timezone_cmd "timezone UTC" (get_timezone_settings r) ∈
        writeDefaults (mkCommands fns r) (walkFound (mkCommands fns r) tpl2) := by
      unfold writeDefaults
      rw [List.mem_filterMap]
      refine ⟨{ name := "timezone"
                applyCmd := fun line => fns.timezone_cmd line (get_timezone_settings r)
                truthy := (get_timezone_settings r).truthy
                dflt := "timezone UTC"
                replace := false }, by simp [mkCommands], ?_⟩
      simp [hnf, h3]
    simp only [customize_ks_template]
    exact List.mem_append_left _ hmem

theorem c1_timezone_template_line_wins_witness :
    (∃ l ∈ ["timezone Europe/Prague", "%packages"], pyStartswith l "timezone" = true)
    ∧ (∀ l ∈ ["keyboard us", "%packages"], pyStartswith l "timezone" = false)
    ∧ (get_timezone_settings rcpTz).truthy = true
    ∧ ((∀ l ∈ ["timezone Europe/Prague", "%packages"], pyStartswith l "timezone" = true →
          walkLine (mkCommands tagFns rcpTz) l = l
          ∧ l ∈ customize_ks_template tagFns ["timezone Europe/Prague", "%packages"] rcpTz)
        ∧ customize_ks_template { tagFns with timezone_cmd := fun line _ => line ++ " #other" }
            ["timezone Europe/Prague", "%packages"] rcpTz
          = customize_ks_template tagFns ["timezone Europe/Prague", "%packages"] rcpTz
        ∧ tagFns.timezone_cmd "timezone UTC" (get_timezone_settings rcpTz)
            ∈ customize_ks_template tagFns ["keyboard us", "%packages"] rcpTz) :=
  ⟨by decide, by decide, by decide,
    c1_timezone_template_line_wins tagFns (fun line _ => line ++ " #other") rcpTz
      ["timezone Europe/Prague", "%packages"] ["keyboard us", "%packages"]
      (by decide) (by decide) (by decide)⟩

/-! ### C4: per-directive defaults, prepended before the template body -/

theorem walkLine_packages_line (fns : MergeFns) (r : Recipe) {lp : String}
    (hp : pyStartswith lp "%packages" = true) :
    walkLine (mkCommands fns r) lp = lp := by
  have hnone : findCommand (mkCommands fns r) lp = none := by
    have : ∀ c ∈ mkCommands fns r, ¬((fun c => pyStartswith lp c.name) c = true) := by
      intro c hc
      fin_cases hc <;>
        · dsimp only
          intro hcon
          exact namesConflict (by decide) (by decide) lp ⟨hcon, hp⟩
    exact List.find?_eq_none.mpr this
  unfold walkLine
  rw [hnone]

/-- C4 (amended): for every directive among the six that no template line
starts with, the defaults step synthesizes `merge_fn(default, value)` when the
value is truthy and the default line is non-empty, else the default line when
it is non-empty, else nothing; and the synthesized lines are prepended before
the processed template body, so a `%packages` line of the template reappears,
unchanged, only after all of them. -/
theorem c4_missing_directives_get_defaults (fns : MergeFns) (r : Recipe)
    (lines : List String) (i : Nat) (lp : String)
    (hi : lines[i]? = some lp) (hp : pyStartswith lp "%packages" = true) :
    customize_ks_template fns lines r
      = writeDefaults (mkCommands fns r) (walkFound (mkCommands fns r) lines)
          ++ lines.map (walkLine (mkCommands fns r))
    ∧ writeDefaults (mkCommands fns r) (walkFound (mkCommands fns r) lines)
        = (mkCommands fns r).filterMap (fun c =>
            if ∃ l ∈ lines, pyStartswith l c.name = true then none
            else if c.truthy && !(c.dflt == "") then some (c.applyCmd c.dflt)
            else if !(c.dflt == "") then some c.dflt
            else none)
    ∧ (customize_ks_template fns lines r)[
          (writeDefaults (mkCommands fns r) (walkFound (mkCommands fns r) lines)).length + i]?
        = some lp := by
  refine ⟨rfl, ?_, ?_⟩
  · unfold writeDefaults
    apply List.filterMap_congr
    intro c hc
    have hmemn : c.name ∈ (mkCommands fns r).map KsCommand.name :=
      List.mem_map_of_mem _ hc
    exact if_congr (mem_walkFound_iff fns r hmemn lines) rfl rfl
  · simp only [customize_ks_template]
    rw [List.getElem?_append]
    rw [if_neg (by omega)]
    rw [Nat.add_sub_cancel_left]
    rw [List.getElem?_map, hi]
    simp [walkLine_packages_line fns r hp]

/-- C4 counterexample: with no blueprint services settings and a template
without a `services` line, the `services` value (a dict that always carries its
`enabled`/`disabled` keys) is truthy, yet no merged default is synthesized for
it, because its default line is empty — the output is not what the claim's
literal rule predicts. -/
theorem c4_counterexample :
    (∀ l ∈ ["%packages"], pyStartswith l "services" = false)
    ∧ (mkCommands tagFns emptyRecipe).map KsCommand.truthy
        = [false, false, false, false, true, true]
    ∧ tagFns.services_cmd (get_default_services emptyRecipe) (get_services emptyRecipe)
        ∉ customize_ks_template tagFns ["%packages"] emptyRecipe
    ∧ customize_ks_template tagFns ["%packages"] emptyRecipe
        ≠ claimedDefaults (mkCommands tagFns emptyRecipe) ["%packages"]
            ++ List.map (walkLine (mkCommands tagFns emptyRecipe)) ["%packages"] := by
  refine ⟨by decide, by decide, by decide, by decide⟩

theorem c4_missing_directives_get_defaults_witness :
    (["lang cs_CZ.UTF-8", "%packages"][1]? = some "%packages")
    ∧ pyStartswith "%packages" "%packages" = true
    ∧ (customize_ks_template tagFns ["lang cs_CZ.UTF-8", "%packages"] rcpTz
        = writeDefaults (mkCommands tagFns rcpTz)
            (walkFound (mkCommands tagFns rcpTz) ["lang cs_CZ.UTF-8", "%packages"])
          ++ List.map (walkLine (mkCommands tagFns rcpTz)) ["lang cs_CZ.UTF-8", "%packages"]
      ∧ writeDefaults (mkCommands tagFns rcpTz)
            (walkFound (mkCommands tagFns rcpTz) ["lang cs_CZ.UTF-8", "%packages"])
          = (mkCommands tagFns rcpTz).filterMap (fun c =>
              if ∃ l ∈ ["lang cs_CZ.UTF-8", "%packages"], pyStartswith l c.name = true then none
              else if c.truthy && !(c.dflt == "") then some (c.applyCmd c.dflt)
              else if !(c.dflt == "") then some c.dflt
              else none)
      ∧ (customize_ks_template tagFns ["lang cs_CZ.UTF-8", "%packages"] rcpTz)[
            (writeDefaults (mkCommands tagFns rcpTz)
              (walkFound (mkCommands tagFns rcpTz) ["lang cs_CZ.UTF-8", "%packages"])).length + 1]?
          = some "%packages") :=
  ⟨by decide, by decide,
    c4_missing_directives_get_defaults tagFns rcpTz ["lang cs_CZ.UTF-8", "%packages"] 1
      "%packages" (by decide) (by decide)⟩

/-! ### Structure of the post-%end customization lines -/

theorem sshkeyLines_head (entries : List SshkeyEntry) :
    ∀ l ∈ sshkeyLines entries, l.data.head? = some 's' := by
  intro l hl
  rcases List.mem_filterMap.mp hl with ⟨e, _, hfe⟩
  cases hu : e.user <;> cases hk : e.key <;> simp [hu, hk] at hfe
  rw [← hfe]
  repeat apply head_data_append
  decide

theorem write_ks_root_lines_head (u : KsUser) :
    ∀ l ∈ (write_ks_root u).1,
      l.data.head? = some 's' ∨ l.data.head? = some 'r' := by
  intro l hl
  unfold write_ks_root at hl
  cases hk : u.key with
  | none =>
    cases hp : u.password with
    | none => simp [hk, hp] at hl
    | some pw =>
      by_cases hcr : isCryptedPassword pw
      · simp [hk, hp, hcr] at hl
        subst hl
        right
        repeat apply head_data_append
        decide
      · simp [hk, hp, hcr] at hl
        subst hl
        right
        repeat apply head_data_append
        decide
  | some k =>
    cases hp : u.password with
    | none =>
      simp [hk, hp] at hl
      subst hl
      left
      repeat apply head_data_append
      decide
    | some pw =>
      by_cases hcr : isCryptedPassword pw
      · simp [hk, hp, hcr] at hl
        rcases hl with hl | hl
        · subst hl
          left
          repeat apply head_data_append
          decide
        · subst hl
          right
          repeat apply head_data_append
          decide
      · simp [hk, hp, hcr] at hl
        rcases hl with hl | hl
        · subst hl
          left
          repeat apply head_data_append
          decide
        · subst hl
          right
          repeat apply head_data_append
          decide

theorem write_ks_user_lines_head (u : KsUser) :
    ∀ l ∈ write_ks_user u,
      l.data.head? = some 's' ∨ l.data.head? = some 'u' := by
  intro l hl
  unfold write_ks_user at hl
  cases hk : u.key <;> simp only [hk] at hl
  · simp at hl
    rw [hl]
    right
    repeat apply head_data_append
    decide
  · simp at hl
    rcases hl with hl | hl <;> rw [hl]
    · left
      repeat apply head_data_append
      decide
    · right
      repeat apply head_data_append
      decide

theorem write_ks_root_no_rootpw (u : KsUser) (hp : u.password = none) :
    (write_ks_root u).2 = false := by
  unfold write_ks_root
  cases hk : u.key <;> simp [hp]

theorem processUsers_ok_parts (users : List KsUser) (acc : List String) (w : Bool)
    {lines ugs : List String} {w2 : Bool}
    (h : processUsers users acc w = Except.ok (lines, ugs, w2)) :
    ugs = acc ++ users.filterMap (fun u =>
        match u.name with
        | some m => if m = "root" then none else some m
        | none => none)
    ∧ (∀ l ∈ lines,
        l.data.head? = some 's' ∨ l.data.head? = some 'r' ∨ l.data.head? = some 'u')
    ∧ ((∀ u ∈ users, u.name = some "root") →
        ∀ l ∈ lines, l.data.head? = some 's' ∨ l.data.head? = some 'r')
    ∧ ((∀ u ∈ users, u.name = some "root" → u.password = none) → w = false →
        w2 = false) := by
  induction users generalizing acc w lines ugs w2 with
  | nil =>
    unfold processUsers at h
    have h' : (Except.ok (([], acc, w) : List String × List String × Bool) :
        Except String _) = Except.ok (lines, ugs, w2) := h
    simp only [Except.ok.injEq, Prod.mk.injEq] at h'
    obtain ⟨h1, h2, h3⟩ := h'
    subst h1
    subst h2
    subst h3
    exact ⟨by simp, by simp, fun _ => by simp, fun _ hw => hw⟩
  | cons u rest ih =>
    unfold processUsers at h
    cases hn : u.name with
    | none => simp [hn] at h
    | some n =>
      simp only [hn] at h
      by_cases hroot : n = "root"
      · subst hroot
        rw [if_pos rfl] at h
        cases hrec : processUsers rest acc (write_ks_root u).2 with
        | error e =>
          rw [hrec] at h
          have h' : (Except.error e : Except String (List String × List String × Bool))
              = Except.ok (lines, ugs, w2) := h
          exact absurd h' (by simp)
        | ok res =>
          obtain ⟨l2, ugs2, wr2⟩ := res
          rw [hrec] at h
          have h' : (Except.ok (((write_ks_root u).1 ++ l2, ugs2, wr2) :
              List String × List String × Bool) : Except String _)
              = Except.ok (lines, ugs, w2) := h
          simp only [Except.ok.injEq, Prod.mk.injEq] at h'
          obtain ⟨h1, h2, h3⟩ := h'
          subst h1
          subst h2
          subst h3
          obtain ⟨ih1, ih2, ih3, ih4⟩ := ih acc (write_ks_root u).2 hrec
          refine ⟨?_, ?_, ?_, ?_⟩
          · rw [ih1]
            simp [List.filterMap_cons, hn]
          · intro l hl
            rcases List.mem_append.mp hl with hl | hl
            · rcases write_ks_root_lines_head u l hl with h' | h'
              · exact Or.inl h'
              · exact Or.inr (Or.inl h')
            · exact ih2 l hl
          · intro hall l hl
            rcases List.mem_append.mp hl with hl | hl
            · exact write_ks_root_lines_head u l hl
            · exact ih3 (fun v hv => hall v (List.mem_cons_of_mem u hv)) l hl
          · intro hnopw _
            have hupw : u.password = none :=
              hnopw u (List.mem_cons_self u rest) hn
            exact ih4 (fun v hv => hnopw v (List.mem_cons_of_mem u hv))
              (write_ks_root_no_rootpw u hupw)
      · rw [if_neg hroot] at h
        cases hrec : processUsers rest (acc ++ [n]) w with
        | error e =>
          rw [hrec] at h
          have h' : (Except.error e : Except String (List String × List String × Bool))
              = Except.ok (lines, ugs, w2) := h
          exact absurd h' (by simp)
        | ok res =>
          obtain ⟨l2, ugs2, wr2⟩ := res
          rw [hrec] at h
          have h' : (Except.ok ((write_ks_user u ++ l2, ugs2, wr2) :
              List String × List String × Bool) : Except String _)
              = Except.ok (lines, ugs, w2) := h
          simp only [Except.ok.injEq, Prod.mk.injEq] at h'
          obtain ⟨h1, h2, h3⟩ := h'
          subst h1
          subst h2
          subst h3
          obtain ⟨ih1, ih2, ih3, ih4⟩ := ih (acc ++ [n]) w hrec
          refine ⟨?_, ?_, ?_, ?_⟩
          · rw [ih1]
            simp [List.filterMap_cons, hn, hroot, List.append_assoc]
          · intro l hl
            rcases List.mem_append.mp hl with hl | hl
            · rcases write_ks_user_lines_head u l hl with h' | h'
              · exact Or.inl h'
              · exact Or.inr (Or.inr h')
            · exact ih2 l hl
          · intro hall
            have hcon := hall u (List.mem_cons_self u rest)
            rw [hn] at hcon
            simp only [Option.some.injEq] at hcon
            exact absurd hcon hroot
          · intro hnopw hw
            exact ih4 (fun v hv => hnopw v (List.mem_cons_of_mem u hv)) hw

theorem processGroups_ok_lines (ugs : List String) (groups : List KsGroup)
    {gl : List String} (h : processGroups ugs groups = Except.ok gl) :
    ∀ l ∈ gl, l.data.head? = some 'g' := by
  induction groups generalizing gl with
  | nil =>
    unfold processGroups at h
    simp only [Except.ok.injEq] at h
    subst h
    simp
  | cons g rest ih =>
    unfold processGroups at h
    cases hn : g.name with
    | none => simp [hn] at h
    | some n =>
      simp only [hn] at h
      by_cases hmem : n ∈ ugs
      · rw [if_pos hmem] at h
        exact ih h
      · rw [if_neg hmem] at h
        simp only [write_ks_group, hn] at h
        cases hrec : processGroups ugs rest with
        | error e => rw [hrec] at h; exact absurd h (by simp)
        | ok gl2 =>
          rw [hrec] at h
          simp only [Except.ok.injEq] at h
          rw [← h]
          intro l hl
          rcases List.mem_cons.mp hl with hl | hl
          · rw [hl]
            repeat apply head_data_append
            decide
          · exact ih hrec l hl

theorem addTable_ok_structure {c : Customizations} {L : List String}
    (hok : addCustomizationsTable c = Except.ok L) :
    ∃ lines ugs w2 gl,
      (match c.user with
       | some users => processUsers users [] false
       | none => Except.ok (([], [], false) : List String × List String × Bool))
        = Except.ok (lines, ugs, w2)
      ∧ (match c.group with
         | some groups => processGroups ugs groups
         | none => Except.ok ([] : List String)) = Except.ok gl
      ∧ L = (match c.hostname with
             | some h => ["network --hostname=" ++ h]
             | none => [])
          ++ (match c.sshkey with
              | some entries => sshkeyLines entries
              | none => [])
          ++ lines ++ gl ++ (if w2 then [] else ["rootpw --lock"]) := by
  unfold addCustomizationsTable at hok
  cases hum : (match c.user with
      | some users => processUsers users [] false
      | none => Except.ok (([], [], false) : List String × List String × Bool)) with
  | error e => rw [hum] at hok; exact absurd hok (by simp)
  | ok ur =>
    rw [hum] at hok
    dsimp only at hok
    cases hgm : (match c.group with
        | some groups => processGroups ur.2.1 groups
        | none => Except.ok ([] : List String)) with
    | error e =>
      rw [hgm] at hok
      exact absurd hok (by simp)
    | ok gl =>
      rw [hgm] at hok
      dsimp only at hok
      simp only [Except.ok.injEq] at hok
      exact ⟨ur.1, ur.2.1, ur.2.2, gl, rfl, hgm, hok.symm⟩

theorem addTable_lines_head {c : Customizations} {L : List String}
    (hok : addCustomizationsTable c = Except.ok L) :
    ∀ l ∈ L, l.data.head? = some 'n' ∨ l.data.head? = some 's'
      ∨ l.data.head? = some 'u' ∨ l.data.head? = some 'g'
      ∨ l.data.head? = some 'r' := by
  obtain ⟨lines, ugs, w2, gl, hum, hgm, hL⟩ := addTable_ok_structure hok
  have husers : ∀ l ∈ lines,
      l.data.head? = some 's' ∨ l.data.head? = some 'r' ∨ l.data.head? = some 'u' := by
    cases hcu : c.user with
    | none =>
      rw [hcu] at hum
      simp only [Except.ok.injEq, Prod.mk.injEq] at hum
      obtain ⟨h1, _, _⟩ := hum
      rw [← h1]
      simp
    | some users =>
      rw [hcu] at hum
      exact (processUsers_ok_parts users [] false hum).2.1
  have hgroups : ∀ l ∈ gl, l.data.head? = some 'g' := by
    cases hcg : c.group with
    | none =>
      rw [hcg] at hgm
      simp only [Except.ok.injEq] at hgm
      rw [← hgm]
      simp
    | some groups =>
      rw [hcg] at hgm
      exact processGroups_ok_lines ugs groups hgm
  rw [hL]
  intro l hl
  rcases List.mem_append.mp hl with hl | hl
  · rcases List.mem_append.mp hl with hl | hl
    · rcases List.mem_append.mp hl with hl | hl
      · rcases List.mem_append.mp hl with hl | hl
        · cases hch : c.hostname with
          | none => rw [hch] at hl; simp at hl
          | some hname =>
            rw [hch] at hl
            simp at hl
            rw [hl]
            left
            repeat apply head_data_append
            decide
        · cases hcs : c.sshkey with
          | none => rw [hcs] at hl; simp at hl
          | some entries =>
            rw [hcs] at hl
            exact Or.inr (Or.inl (sshkeyLines_head entries l hl))
      · rcases husers l hl with h' | h' | h'
        · exact Or.inr (Or.inl h')
        · exact Or.inr (Or.inr (Or.inr (Or.inr h')))
        · exact Or.inr (Or.inr (Or.inl h'))
    · exact Or.inr (Or.inr (Or.inr (Or.inl (hgroups l hl))))
  · cases w2 <;> simp at hl
    rw [hl]
    right; right; right; right
    decide

/-! ### C3: root user handling -/

theorem addTable_all_root_lines_head {c : Customizations} {L : List String}
    (hok : addCustomizationsTable c = Except.ok L)
    (hall : ∀ v ∈ c.user.getD [], v.name = some "root") :
    ∀ l ∈ L, l.data.head? = some 'n' ∨ l.data.head? = some 's'
      ∨ l.data.head? = some 'g' ∨ l.data.head? = some 'r' := by
  obtain ⟨lines, ugs, w2, gl, hum, hgm, hL⟩ := addTable_ok_structure hok
  have husers : ∀ l ∈ lines,
      l.data.head? = some 's' ∨ l.data.head? = some 'r' := by
    cases hcu : c.user with
    | none =>
      rw [hcu] at hum
      simp only [Except.ok.injEq, Prod.mk.injEq] at hum
      obtain ⟨h1, _, _⟩ := hum
      rw [← h1]
      simp
    | some users =>
      rw [hcu] at hum
      refine (processUsers_ok_parts users [] false hum).2.2.1 ?_
      intro v hv
      exact hall v (by rw [hcu]; simpa using hv)
  have hgroups : ∀ l ∈ gl, l.data.head? = some 'g' := by
    cases hcg : c.group with
    | none =>
      rw [hcg] at hgm
      simp only [Except.ok.injEq] at hgm
      rw [← hgm]
      simp
    | some groups =>
      rw [hcg] at hgm
      exact processGroups_ok_lines ugs groups hgm
  rw [hL]
  intro l hl
  rcases List.mem_append.mp hl with hl | hl
  · rcases List.mem_append.mp hl with hl | hl
    · rcases List.mem_append.mp hl with hl | hl
      · rcases List.mem_append.mp hl with hl | hl
        · cases hch : c.hostname with
          | none => rw [hch] at hl; simp at hl
          | some hname =>
            rw [hch] at hl
            simp at hl
            rw [hl]
            left
            repeat apply head_data_append
            decide
        · cases hcs : c.sshkey with
          | none => rw [hcs] at hl; simp at hl
          | some entries =>
            rw [hcs] at hl
            exact Or.inr (Or.inl (sshkeyLines_head entries l hl))
      · rcases husers l hl with h' | h'
        · exact Or.inr (Or.inl h')
        · exact Or.inr (Or.inr (Or.inr h'))
    · exact Or.inr (Or.inr (Or.inl (hgroups l hl)))
  · cases w2 <;> simp at hl
    rw [hl]
    right; right; right
    decide

theorem not_user_line {l : String} {ch : Char} (h : l.data.head? = some ch)
    (hne : ch ≠ 'u') : pyStartswith l "user " = false :=
  not_pyStartswith_of_head_ne h (by decide) hne

/-- C3: a blueprint user named `root` never produces a `user` directive — with
only root users in the blueprint no output line starts with `user ` —;
`write_ks_root` emits `sshkey --user root "<key>"` for the key and a `rootpw`
line for the password, `--iscrypted` exactly when the password starts with
`$2b$`, `$5$` or `$6$` (else `--plaintext`); and when no root user produced a
`rootpw` line, the output ends with `rootpw --lock`. -/
theorem c3_root_user_rules (c : Customizations) (L : List String)
    (hok : add_customizations { customizations := some (CustomizationsValue.table c) }
      = Except.ok L)
    (u : KsUser) (hu : u.name = some "root") (k pw : String) :
    ((∀ v ∈ c.user.getD [], v.name = some "root") →
      ∀ l ∈ L, pyStartswith l "user " = false)
    ∧ (write_ks_root { u with key := some k, password := some pw }).1
        = ["sshkey --user root \"" ++ k ++ "\"",
           if isCryptedPassword pw
           then "rootpw --iscrypted \"" ++ pw ++ "\""
           else "rootpw --plaintext \"" ++ pw ++ "\""]
    ∧ (isCryptedPassword pw = true ↔
        (pyStartswith pw "$2b$" = true ∨ pyStartswith pw "$5$" = true
          ∨ pyStartswith pw "$6$" = true))
    ∧ ((∀ v ∈ c.user.getD [], v.name = some "root" → v.password = none) →
        L.getLast? = some "rootpw --lock") := by
  have hok' : addCustomizationsTable c = Except.ok L := hok
  refine ⟨?_, ?_, ?_, ?_⟩
  · intro hall l hl
    rcases addTable_all_root_lines_head hok' hall l hl with h' | h' | h' | h' <;>
      exact not_user_line h' (by decide)
  · unfold write_ks_root
    by_cases hcr : isCryptedPassword pw
    · simp [hu, hcr]
    · simp [hu, hcr]
  · unfold isCryptedPassword
    simp only [Bool.or_eq_true]
    tauto
  · intro hnopw
    obtain ⟨lines, ugs, w2, gl, hum, hgm, hL⟩ := addTable_ok_structure hok'
    have hw2 : w2 = false := by
      cases hcu : c.user with
      | none =>
        rw [hcu] at hum
        simp only [Except.ok.injEq, Prod.mk.injEq] at hum
        exact hum.2.2.symm
      | some users =>
        rw [hcu] at hum
        refine (processUsers_ok_parts users [] false hum).2.2.2 ?_ rfl
        intro v hv
        exact hnopw v (by rw [hcu]; simpa using hv)
    rw [hL, hw2]
    rw [if_neg (by simp)]
    rw [List.getLast?_concat]

theorem c3_root_user_rules_witness :
    (add_customizations { customizations := some (CustomizationsValue.table
        { emptyCustoms with user := some [rootKeyUser] }) }
      = Except.ok ["sshkey --user root \"KEYDATA\"", "rootpw --lock"])
    ∧ rootKeyUser.name = some "root"
    ∧ (((∀ v ∈ ({ emptyCustoms with user := some [rootKeyUser] } :
            Customizations).user.getD [], v.name = some "root") →
        ∀ l ∈ ["sshkey --user root \"KEYDATA\"", "rootpw --lock"],
          pyStartswith l "user " = false)
      ∧ (write_ks_root { rootKeyUser with key := some "K2", password := some "$5$x" }).1
          = ["sshkey --user root \"K2\"",
             if isCryptedPassword "$5$x"
             then "rootpw --iscrypted \"$5$x\""
             else "rootpw --plaintext \"$5$x\""]
      ∧ (isCryptedPassword "$5$x" = true ↔
          (pyStartswith "$5$x" "$2b$" = true ∨ pyStartswith "$5$x" "$5$" = true
            ∨ pyStartswith "$5$x" "$6$" = true))
      ∧ ((∀ v ∈ ({ emptyCustoms with user := some [rootKeyUser] } :
              Customizations).user.getD [], v.name = some "root" → v.password = none) →
          (["sshkey --user root \"KEYDATA\"", "rootpw --lock"] :
            List String).getLast? = some "rootpw --lock")) :=
  ⟨by rfl, by decide,
    c3_root_user_rules { emptyCustoms with user := some [rootKeyUser] }
      ["sshkey --user root \"KEYDATA\"", "rootpw --lock"] (by rfl)
      rootKeyUser (by decide) "K2" "$5$x"⟩

/-! ### C5: group handling -/

/-- C5: after the user loop, the `user_groups` accumulator is exactly the
non-root user names; a group whose name is in it is skipped entirely; a group
without a name is a fatal error (the `group["name"]` lookup), which aborts
`add_customizations`; a fresh-named group yields `group --name <name>`, with
` --gid <gid>` appended only when `gid` is present. -/
theorem c5_group_rules (users : List KsUser) (lines ugs : List String) (w : Bool)
    (g : KsGroup) (gs : List KsGroup) (n : String)
    (hu : processUsers users [] false = Except.ok (lines, ugs, w)) :
    ugs = users.filterMap (fun u =>
        match u.name with
        | some m => if m = "root" then none else some m
        | none => none)
    ∧ (g.name = some n → n ∈ ugs → processGroups ugs (g :: gs) = processGroups ugs gs)
    ∧ (g.name = none → processGroups ugs (g :: gs) = Except.error "KeyError: name")
    ∧ (g.name = some n → n ∉ ugs →
        processGroups ugs (g :: gs) = (processGroups ugs gs).map
          (fun ls => ("group --name " ++ n ++
            (match g.gid with
             | some gid => " --gid " ++ toString gid
             | none => "")) :: ls))
    ∧ (∀ c : Customizations, c.user = some users → c.group = some (g :: gs) →
        g.name = none →
        addCustomizationsTable c = Except.error "KeyError: name") := by
  have herr : g.name = none → processGroups ugs (g :: gs) = Except.error "KeyError: name" := by
    intro hgn
    conv_lhs => rw [processGroups]
    rw [hgn]
  refine ⟨?_, ?_, herr, ?_, ?_⟩
  · simpa using (processUsers_ok_parts users [] false hu).1
  · intro hgn hmem
    conv_lhs => rw [processGroups]
    rw [hgn]
    dsimp only
    rw [if_pos hmem]
  · intro hgn hmem
    conv_lhs => rw [processGroups]
    rw [hgn]
    dsimp only
    rw [if_neg hmem]
    simp only [write_ks_group, hgn]
    cases hrec : processGroups ugs gs with
    | error e => simp [Except.map]
    | ok gl => simp [Except.map]
  · intro c hcu hcg hgn
    unfold addCustomizationsTable
    rw [hcu, hcg]
    dsimp only
    rw [hu]
    dsimp only
    rw [herr hgn]

theorem c5_group_rules_witness :
    (processUsers [bobUser] [] false = Except.ok (["user --name bob"], ["bob"], false))
    ∧ (["bob"] = [bobUser].filterMap (fun u =>
          match u.name with
          | some m => if m = "root" then none else some m
          | none => none)
      ∧ (bobGroup.name = some "bob" → "bob" ∈ ["bob"] →
          processGroups ["bob"] [bobGroup, { name := some "staff", gid := some 99 }]
            = processGroups ["bob"] [{ name := some "staff", gid := some 99 }])
      ∧ (bobGroup.name = none →
          processGroups ["bob"] [bobGroup, { name := some "staff", gid := some 99 }]
            = Except.error "KeyError: name")
      ∧ (bobGroup.name = some "bob" → "bob" ∉ ["bob"] →
          processGroups ["bob"] [bobGroup, { name := some "staff", gid := some 99 }]
            = (processGroups ["bob"] [{ name := some "staff", gid := some 99 }]).map
                (fun ls => ("group --name " ++ "bob" ++
                  (match bobGroup.gid with
                   | some gid => " --gid " ++ toString gid
                   | none => "")) :: ls))
      ∧ (∀ c : Customizations, c.user = some [bobUser] →
          c.group = some [bobGroup, { name := some "staff", gid := some 99 }] →
          bobGroup.name = none →
          addCustomizationsTable c = Except.error "KeyError: name")) :=
  ⟨by rfl,
    c5_group_rules [bobUser] ["user --name bob"] ["bob"] false bobGroup
      [{ name := some "staff", gid := some 99 }] "bob" (by rfl)⟩

/-! ### C9: list-valued customizations -/

/-- C9: a customizations sub-document given as a non-empty list (TOML
`[[customizations]]`) behaves exactly as if its first element were the
customizations table. -/
theorem c9_list_customizations_use_first (c : Customizations)
    (rest : List Customizations) :
    add_customizations { customizations := some (CustomizationsValue.list (c :: rest)) }
      = add_customizations { customizations := some (CustomizationsValue.table c) } := rfl

/-! ### C10: malformed legacy sshkey entries -/

/-- C10: a legacy sshkey entry missing `user` or `key` is skipped and yields no
line, every well-formed entry of the same list still yields its
`sshkey --user <user> "<key>"` line, and a malformed entry never turns a
succeeding `add_customizations` into a failing one (or vice versa). -/
theorem c10_malformed_sshkey_skipped (c : Customizations)
    (pre post : List SshkeyEntry) (e : SshkeyEntry)
    (hmal : e.user = none ∨ e.key = none) :
    sshkeyLines (pre ++ e :: post) = sshkeyLines (pre ++ post)
    ∧ (∀ e2 ∈ pre ++ post, ∀ u k, e2.user = some u → e2.key = some k →
        ("sshkey --user " ++ u ++ " \"" ++ k ++ "\"") ∈ sshkeyLines (pre ++ post))
    ∧ (addCustomizationsTable { c with sshkey := some (pre ++ e :: post) }).isOk
        = (addCustomizationsTable { c with sshkey := some (pre ++ post) }).isOk := by
  have hss : sshkeyLines (pre ++ e :: post) = sshkeyLines (pre ++ post) := by
    obtain ⟨eu, ek⟩ := e
    unfold sshkeyLines
    rw [List.filterMap_append, List.filterMap_append, List.filterMap_cons]
    rcases hmal with h | h <;> simp only at h <;> subst h
    · rfl
    · cases eu <;> rfl
  refine ⟨hss, ?_, ?_⟩
  · intro e2 he2 u k hu hk
    unfold sshkeyLines
    rw [List.mem_filterMap]
    refine ⟨e2, he2, ?_⟩
    obtain ⟨e2u, e2k⟩ := e2
    simp only at hu hk
    subst hu
    subst hk
    rfl
  · unfold addCustomizationsTable
    dsimp only
    rw [hss]

theorem c10_malformed_sshkey_skipped_witness :
    (sshEntryNoKey.user = none ∨ sshEntryNoKey.key = none)
    ∧ (sshkeyLines ([sshEntryGood] ++ sshEntryNoKey :: [])
          = sshkeyLines ([sshEntryGood] ++ [])
      ∧ (∀ e2 ∈ [sshEntryGood] ++ ([] : List SshkeyEntry), ∀ u k,
          e2.user = some u → e2.key = some k →
          ("sshkey --user " ++ u ++ " \"" ++ k ++ "\"")
            ∈ sshkeyLines ([sshEntryGood] ++ []))
      ∧ (addCustomizationsTable { emptyCustoms with
            sshkey := some ([sshEntryGood] ++ sshEntryNoKey :: []) }).isOk
          = (addCustomizationsTable { emptyCustoms with
              sshkey := some ([sshEntryGood] ++ []) }).isOk) :=
  ⟨by decide,
    c10_malformed_sshkey_skipped emptyCustoms [sshEntryGood] [] sshEntryNoKey
      (by decide)⟩

/-! ### C6: per-architecture denylist and compose-type validation -/

theorem lookup_pair_map (t : String) (l : List String) (f : String → Bool) :
    (l.map (fun x => (x, f x))).lookup t = if t ∈ l then some (f t) else none := by
  induction l with
  | nil => simp
  | cons a rest ih =>
    simp only [List.map_cons, List.lookup]
    by_cases hta : a = t
    · subst hta
      simp
    · have hbeq : (t == a) = false := beq_eq_false_iff_ne.mpr (fun h => hta h.symm)
      rw [hbeq]
      dsimp only
      rw [ih]
      by_cases htm : t ∈ rest
      · rw [if_pos htm, if_pos (List.mem_cons_of_mem a htm)]
      · rw [if_neg htm, if_neg ?_]
        rintro h
        rcases List.mem_cons.mp h with h | h
        · exact hta h.symm
        · exact htm h

theorem compose_types_lookup (ks : List String) (machine t : String) :
    (compose_types ks machine).lookup t
      = if t ∈ ks then some (decide (t ∉ disableMap machine)) else none := by
  unfold compose_types
  rw [lookup_pair_map]
  have hmem : t ∈ sortedStrings ks ↔ t ∈ ks :=
    (List.mergeSort_perm ks _).mem_iff
  by_cases htm : t ∈ ks
  · rw [if_pos (hmem.mpr htm), if_pos htm]
  · rw [if_neg (fun h => htm (hmem.mp h)), if_neg htm]

/-- C6: `compose_types` marks a type disabled exactly when the architecture's
denylist contains it; seven architectures deny the full six-type set, aarch64
denies the same set without `ami`, and every other architecture denies
nothing; and the validation prelude of `start_build` errors for an unknown
type and for a type disabled on the current architecture. -/
theorem c6_denylist_and_validation (ks : List String) (machine m2 t : String)
    (hm : machine ∉ (["arm", "armhfp", "aarch64", "ppc", "ppc64", "ppc64le",
        "s390", "s390x"] : List String)) :
    (∀ m ∈ (["arm", "armhfp", "ppc", "ppc64", "ppc64le", "s390", "s390x"] : List String),
        disableMap m = ["alibaba", "ami", "google", "hyper-v", "vhd", "vmdk"])
    ∧ disableMap "aarch64" = ["alibaba", "google", "hyper-v", "vhd", "vmdk"]
    ∧ disableMap machine = []
    ∧ (∀ t' b, (t', b) ∈ compose_types ks m2 → (b = false ↔ t' ∈ disableMap m2))
    ∧ ((startBuildTypeCheck ks m2 t).isOk = true ↔ (t ∈ ks ∧ t ∉ disableMap m2))
    ∧ (t ∉ ks → startBuildTypeCheck ks m2 t
        = Except.error ("Invalid compose type (" ++ t ++ ")"))
    ∧ (t ∈ ks → t ∈ disableMap m2 → startBuildTypeCheck ks m2 t
        = Except.error ("Compose type '" ++ t ++ "' is disabled on this architecture")) := by
  have hne : ∀ x ∈ (["arm", "armhfp", "aarch64", "ppc", "ppc64", "ppc64le",
      "s390", "s390x"] : List String), machine ≠ x := fun x hx he => hm (he ▸ hx)
  refine ⟨?_, by decide, ?_, ?_, ?_, ?_, ?_⟩
  · intro m hmm
    fin_cases hmm <;> rfl
  · unfold disableMap
    rw [if_neg (hne "arm" (by decide)), if_neg (hne "armhfp" (by decide)),
      if_neg (hne "aarch64" (by decide)), if_neg (hne "ppc" (by decide)),
      if_neg (hne "ppc64" (by decide)), if_neg (hne "ppc64le" (by decide)),
      if_neg (hne "s390" (by decide)), if_neg (hne "s390x" (by decide))]
  · intro t' b hmem
    unfold compose_types at hmem
    rcases List.mem_map.mp hmem with ⟨x, _, hx⟩
    simp only [Prod.mk.injEq] at hx
    obtain ⟨hx1, hx2⟩ := hx
    subst hx1
    rw [← hx2]
    simp
  · unfold startBuildTypeCheck
    rw [compose_types_lookup]
    by_cases htm : t ∈ ks
    · rw [if_pos htm]
      by_cases hdis : t ∈ disableMap m2
      · simp [hdis, htm, Except.isOk, Except.toBool]
      · simp [hdis, htm, Except.isOk, Except.toBool]
    · rw [if_neg htm]
      simp [htm, Except.isOk, Except.toBool]
  · intro htm
    unfold startBuildTypeCheck
    rw [compose_types_lookup, if_neg htm]
  · intro htm hdis
    unfold startBuildTypeCheck
    rw [compose_types_lookup, if_pos htm]
    simp [hdis]

theorem c6_denylist_and_validation_witness :
    ("x86_64" ∉ (["arm", "armhfp", "aarch64", "ppc", "ppc64", "ppc64le",
        "s390", "s390x"] : List String))
    ∧ (disableMap "x86_64" = []
      ∧ (∀ t' b, (t', b) ∈ compose_types ["qcow2", "vhd", "tar"] "s390x" →
          (b = false ↔ t' ∈ disableMap "s390x"))
      ∧ ((startBuildTypeCheck ["qcow2", "vhd", "tar"] "s390x" "vhd").isOk = true ↔
          ("vhd" ∈ (["qcow2", "vhd", "tar"] : List String)
            ∧ "vhd" ∉ disableMap "s390x"))
      ∧ ("vhd" ∉ (["qcow2", "vhd", "tar"] : List String) →
          startBuildTypeCheck ["qcow2", "vhd", "tar"] "s390x" "vhd"
            = Except.error ("Invalid compose type (" ++ "vhd" ++ ")"))
      ∧ ("vhd" ∈ (["qcow2", "vhd", "tar"] : List String) → "vhd" ∈ disableMap "s390x" →
          startBuildTypeCheck ["qcow2", "vhd", "tar"] "s390x" "vhd"
            = Except.error ("Compose type '" ++ "vhd"
                ++ "' is disabled on this architecture"))) :=
  ⟨by decide,
    (fun h => ⟨h.2.2.1, h.2.2.2.1, h.2.2.2.2.1, h.2.2.2.2.2.1, h.2.2.2.2.2.2⟩)
      (c6_denylist_and_validation ["qcow2", "vhd", "tar"] "x86_64" "s390x" "vhd"
        (by decide))⟩

/-! ### C7: the merged, deduplicated, case-insensitively sorted project list -/

theorem lowerNameLe_trans : ∀ (a b c : String × String), lowerNameLe a b = true →
    lowerNameLe b c = true → lowerNameLe a c = true := by
  intro a b c hab hbc
  simp only [lowerNameLe, decide_eq_true_eq] at hab hbc ⊢
  exact le_trans hab hbc

theorem lowerNameLe_total : ∀ (a b : String × String),
    (lowerNameLe a b || lowerNameLe b a) = true := by
  intro a b
  simp only [lowerNameLe, Bool.or_eq_true, decide_eq_true_eq]
  exact le_total _ _

/-- C7: the project list handed to the merged-set depsolve is sorted by
lowercased name, duplicate-free, and contains exactly the union of the module
pairs, the package pairs, and one `(name, "*")` pair per extra package; and
every compose type other than `live-iso` contributes no extra packages. -/
theorem c7_merged_project_list (m p : List (String × String)) (extras : List String)
    (ct : String) (live : List String) (hct : ct ≠ "live-iso") :
    List.Pairwise (fun a b : String × String => a.1.toLower ≤ b.1.toLower)
      (buildProjects m p extras)
    ∧ (buildProjects m p extras).Nodup
    ∧ (∀ x, x ∈ buildProjects m p extras ↔
        (x ∈ m ∨ x ∈ p ∨ ∃ nme ∈ extras, x = (nme, "*")))
    ∧ get_extra_pkgs ct live = [] := by
  refine ⟨?_, ?_, ?_, ?_⟩
  · have hs := List.sorted_mergeSort lowerNameLe_trans lowerNameLe_total
      ((m ++ (p ++ extras.map (fun n => (n, "*")))).dedup)
    exact hs.imp (fun h => by simpa [lowerNameLe, decide_eq_true_eq] using h)
  · exact (List.mergeSort_perm _ lowerNameLe).nodup_iff.mpr (List.nodup_dedup _)
  · intro x
    unfold buildProjects
    rw [(List.mergeSort_perm _ lowerNameLe).mem_iff, List.mem_dedup]
    simp only [List.mem_append, List.mem_map]
    constructor
    · rintro (h | h | ⟨nme, hn, he⟩)
      · exact Or.inl h
      · exact Or.inr (Or.inl h)
      · exact Or.inr (Or.inr ⟨nme, hn, he.symm⟩)
    · rintro (h | h | ⟨nme, hn, he⟩)
      · exact Or.inl h
      · exact Or.inr (Or.inl h)
      · exact Or.inr (Or.inr ⟨nme, hn, he.symm⟩)
  · unfold get_extra_pkgs
    rw [if_pos hct]

theorem c7_merged_project_list_witness :
    ("tar" ≠ "live-iso")
    ∧ (List.Pairwise (fun a b : String × String => a.1.toLower ≤ b.1.toLower)
        (buildProjects [("Zlib", "1.*"), ("bash", "*")] [("bash", "*")] ["glibc"])
      ∧ (buildProjects [("Zlib", "1.*"), ("bash", "*")] [("bash", "*")] ["glibc"]).Nodup
      ∧ (∀ x, x ∈ buildProjects [("Zlib", "1.*"), ("bash", "*")] [("bash", "*")] ["glibc"] ↔
          (x ∈ [("Zlib", "1.*"), ("bash", "*")] ∨ x ∈ [("bash", "*")]
            ∨ ∃ nme ∈ ["glibc"], x = (nme, "*")))
      ∧ get_extra_pkgs "tar" ["dracut-live"] = []) :=
  ⟨by decide,
    c7_merged_project_list [("Zlib", "1.*"), ("bash", "*")] [("bash", "*")] ["glibc"]
      "tar" ["dracut-live"] (by decide)⟩

/-! ### C8: per-type compose_args field map -/

/-- C8: the per-type settings of `compose_args`, as the spec's table selects
them: `tar` makes a tar named `root.tar.xz`; `live-iso` makes an iso
`live.iso` with fs label `Anaconda`; `qcow2` makes a `qcow2` disk
`disk.qcow2`; `vhd` uses image type `vpc` with the fixed-subformat qemu
arguments; `google` makes a tar-wrapped disk with 1024 MiB alignment, gzip -9
compression, `disk.tar.gz` and `disk.raw`; `alibaba` and `openstack` match
the qcow2 disk settings. -/
theorem c8_per_type_compose_args :
    ((compose_args "tar").map ComposeArgs.make_tar = some true
      ∧ (compose_args "tar").map ComposeArgs.image_name = some "root.tar.xz")
    ∧ ((compose_args "live-iso").map ComposeArgs.make_iso = some true
      ∧ (compose_args "live-iso").map ComposeArgs.iso_name = some (some "live.iso")
      ∧ (compose_args "live-iso").map ComposeArgs.fs_label = some (some "Anaconda"))
    ∧ ((compose_args "qcow2").map ComposeArgs.make_disk = some true
      ∧ (compose_args "qcow2").map ComposeArgs.image_type = some (some "qcow2")
      ∧ (compose_args "qcow2").map ComposeArgs.image_name = some "disk.qcow2")
    ∧ ((compose_args "vhd").map ComposeArgs.image_type = some (some "vpc")
      ∧ (compose_args "vhd").map ComposeArgs.qemu_args
          = some ["-o", "subformat=fixed,force_size"])
    ∧ ((compose_args "google").map ComposeArgs.make_disk = some true
      ∧ (compose_args "google").map ComposeArgs.make_tar_disk = some true
      ∧ (compose_args "google").map ComposeArgs.image_size_align = some 1024
      ∧ (compose_args "google").map ComposeArgs.compression = some (some "gzip")
      ∧ (compose_args "google").map ComposeArgs.compress_args = some (some ["-9"])
      ∧ (compose_args "google").map ComposeArgs.image_name = some "disk.tar.gz"
      ∧ (compose_args "google").map ComposeArgs.tar_disk_name = some (some "disk.raw"))
    ∧ ((compose_args "alibaba").map ComposeArgs.make_disk
          = (compose_args "qcow2").map ComposeArgs.make_disk
      ∧ (compose_args "alibaba").map ComposeArgs.image_type
          = (compose_args "qcow2").map ComposeArgs.image_type
      ∧ (compose_args "alibaba").map ComposeArgs.image_name
          = (compose_args "qcow2").map ComposeArgs.image_name
      ∧ (compose_args "openstack").map ComposeArgs.make_disk
          = (compose_args "qcow2").map ComposeArgs.make_disk
      ∧ (compose_args "openstack").map ComposeArgs.image_type
          = (compose_args "qcow2").map ComposeArgs.image_type
      ∧ (compose_args "openstack").map ComposeArgs.image_name
          = (compose_args "qcow2").map ComposeArgs.image_name) :=
  ⟨⟨rfl, rfl⟩, ⟨rfl, rfl, rfl⟩, ⟨rfl, rfl, rfl⟩, ⟨rfl, rfl⟩,
    ⟨rfl, rfl, rfl, rfl, rfl, rfl, rfl⟩, ⟨rfl, rfl, rfl, rfl, rfl, rfl⟩⟩

/-! ### C2: the root partition line and its size -/

theorem nat_ceil_div_nat (a b : ℕ) (hb : 0 < b) :
    ⌈(a : ℚ) / (b : ℚ)⌉₊ = (a + b - 1) / b := by
  rcases Nat.eq_zero_or_pos a with ha | ha
  · subst ha
    have h0 : (0 + b - 1) / b = 0 := Nat.div_eq_of_lt (by omega)
    simpa using h0.symm
  · have hbq : (0 : ℚ) < b := by exact_mod_cast hb
    set n := (a + b - 1) / b with hn
    have hdm := Nat.div_add_mod (a + b - 1) b
    have hmod := Nat.mod_lt (a + b - 1) hb
    rw [← hn] at hdm
    have hnpos : 0 < n := by
      rw [hn]
      refine (Nat.le_div_iff_mul_le hb).mpr ?_
      omega
    rw [Nat.ceil_eq_iff (Nat.pos_iff_ne_zero.mp hnpos)]
    constructor
    · rw [lt_div_iff₀ hbq]
      have hlt : (n - 1) * b < a := by
        have e1 : (n - 1) * b = b * n - b := by
          rw [Nat.sub_one_mul, Nat.mul_comm]
        omega
      calc ((n - 1 : ℕ) : ℚ) * b = (((n - 1) * b : ℕ) : ℚ) := by push_cast; ring
        _ < a := by exact_mod_cast hlt
    · rw [div_le_iff₀ hbq]
      have hle : a ≤ n * b := by
        have e1 : n * b = b * n := Nat.mul_comm n b
        omega
      calc (a : ℚ) ≤ ((n * b : ℕ) : ℚ) := by exact_mod_cast hle
        _ = (n : ℚ) * b := by push_cast; ring

theorem nat_ceil_ceil_div (x : ℚ) (m : ℕ) (hm : 0 < m) :
    ⌈((⌈x⌉₊ : ℕ) : ℚ) / (m : ℚ)⌉₊ = ⌈x / (m : ℚ)⌉₊ := by
  have hmq : (0 : ℚ) < m := by exact_mod_cast hm
  apply le_antisymm
  · rw [Nat.ceil_le, div_le_iff₀ hmq]
    have h1 : x ≤ (⌈x / (m : ℚ)⌉₊ : ℚ) * m := by
      rw [← div_le_iff₀ hmq]
      exact Nat.le_ceil _
    calc (⌈x⌉₊ : ℚ) ≤ ((⌈x / (m : ℚ)⌉₊ * m : ℕ) : ℚ) := by
          exact_mod_cast Nat.ceil_le.mpr (by push_cast; exact h1)
      _ = (⌈x / (m : ℚ)⌉₊ : ℚ) * m := by push_cast; ring
  · exact Nat.ceil_mono ((div_le_div_iff_of_pos_right hmq).mpr (Nat.le_ceil x))

theorem partSize_code_eq_spec (i t : ℕ) : partSizeCode i t = partSizeSpecMiB i t := by
  unfold partSizeCode partSizeSpecMiB partSizeSpecBytes
  have hcast : ((1024 : ℚ) ^ 2) = ((1048576 : ℕ) : ℚ) := by norm_num
  rw [hcast, nat_ceil_ceil_div _ _ (by norm_num)]

theorem partSizeCode_eval (i t : ℕ) :
    partSizeCode i t = (6 * (i + t) + 5242879) / 5242880 := by
  unfold partSizeCode
  have h : (((i + t : ℕ) : ℚ)) * (6 / 5) / ((1024 : ℚ) ^ 2)
      = ((6 * (i + t) : ℕ) : ℚ) / ((5242880 : ℕ) : ℚ) := by
    push_cast
    ring
  rw [h, nat_ceil_div_nat _ _ (by norm_num)]
  omega

theorem isPartSizeLine_false_of_head {l : String} {ch : Char}
    (h : l.data.head? = some ch) (hne : ch ≠ 'p') : isPartSizeLine l = false :=
  not_pyStartswith_of_head_ne h (by decide) hne

theorem add_customizations_lines_head {r : Recipe} {out : List String}
    (h : add_customizations r = Except.ok out) :
    ∀ l ∈ out, l.data.head? = some 'n' ∨ l.data.head? = some 's'
      ∨ l.data.head? = some 'u' ∨ l.data.head? = some 'g'
      ∨ l.data.head? = some 'r' := by
  unfold add_customizations at h
  cases hc : r.customizations with
  | none =>
    rw [hc] at h
    simp only [Except.ok.injEq] at h
    rw [← h]
    intro l hl
    simp only [List.mem_singleton] at hl
    rw [hl]
    right; right; right; right
    decide
  | some v =>
    cases v with
    | table c =>
      rw [hc] at h
      exact addTable_lines_head h
    | list cs =>
      cases cs with
      | nil =>
        rw [hc] at h
        exact absurd h (by simp)
      | cons c rest =>
        rw [hc] at h
        exact addTable_lines_head h

/-- C2: a successful final-kickstart assembly contains exactly one
root-partition line, and its size is the spec's
`ceil(ceil(1.2 × (installed_size + template_size)) / MiB)` (the float literal
`1.2` modelled as the exact rational 6/5). -/
theorem c2_one_part_line (fns : MergeFns) (urlArgs : String)
    (repoArgs : List String) (gitrpmRepo : Option String) (i t : Nat)
    (tpl : List String) (r : Recipe) (deps gitrpmNames L : List String)
    (hL : finalKickstartLines fns urlArgs repoArgs gitrpmRepo i t tpl r deps gitrpmNames
        = Except.ok L)
    (htpl : ∀ l ∈ customize_ks_template fns tpl r, isPartSizeLine l = false)
    (hdeps : ∀ l ∈ deps, isPartSizeLine l = false)
    (hnames : ∀ l ∈ gitrpmNames, isPartSizeLine l = false) :
    L.filter isPartSizeLine
      = ["part / --size=" ++ toString (partSizeSpecMiB i t)] := by
  unfold finalKickstartLines at hL
  cases hpost : add_customizations r with
  | error e =>
    rw [hpost] at hL
    exact absurd hL (by simp)
  | ok post =>
    rw [hpost] at hL
    simp only [Except.ok.injEq] at hL
    rw [← hL]
    have hfu : List.filter isPartSizeLine ["url " ++ urlArgs] = [] := by
      rw [List.filter_eq_nil_iff]
      intro a ha
      rw [List.mem_singleton] at ha
      subst ha
      have hhead : ("url " ++ urlArgs).data.head? = some 'u' :=
        head_data_append urlArgs (by decide)
      simp [isPartSizeLine_false_of_head hhead (by decide)]
    have hfr : List.filter isPartSizeLine
        (repoArgs.enum.map (fun pr => repoLine pr.1 pr.2)) = [] := by
      rw [List.filter_eq_nil_iff]
      intro a ha
      rcases List.mem_map.mp ha with ⟨pr, _, hpr⟩
      rw [← hpr]
      unfold repoLine
      have hhead : ("repo --name=\"composer-" ++ toString pr.1 ++ "\" " ++ pr.2).data.head?
          = some 'r' :=
        head_data_append pr.2 (head_data_append "\" " (head_data_append (toString pr.1)
          (by decide)))
      simp [isPartSizeLine_false_of_head hhead (by decide)]
    have hfg : List.filter isPartSizeLine (gitrpmRepoLines gitrpmRepo) = [] := by
      cases gitrpmRepo with
      | none => rfl
      | some pth =>
        rw [List.filter_eq_nil_iff]
        intro a ha
        rw [gitrpmRepoLines, List.mem_singleton] at ha
        subst ha
        have hhead : ("repo --name=\"gitrpms\" --baseurl=\"file://" ++ pth ++ "\"").data.head?
            = some 'r' :=
          head_data_append "\"" (head_data_append pth (by decide))
        simp [isPartSizeLine_false_of_head hhead (by decide)]
    have hfc : List.filter isPartSizeLine ["clearpart --all --initlabel"] = [] := by
      rw [List.filter_eq_nil_iff]
      intro a ha
      rw [List.mem_singleton] at ha
      subst ha
      have hhead : ("clearpart --all --initlabel" : String).data.head? = some 'c' := by decide
      simp [isPartSizeLine_false_of_head hhead (by decide)]
    have hfp : List.filter isPartSizeLine
        ["part / --size=" ++ toString (partSizeCode i t)]
        = ["part / --size=" ++ toString (partSizeCode i t)] := by
      have : isPartSizeLine ("part / --size=" ++ toString (partSizeCode i t)) = true :=
        pyStartswith_append_self "part / --size=" _
      simp [List.filter, this]
    have hftpl : List.filter isPartSizeLine (customize_ks_template fns tpl r) = [] := by
      rw [List.filter_eq_nil_iff]
      intro a ha
      simp [htpl a ha]
    have hfd : List.filter isPartSizeLine deps = [] := by
      rw [List.filter_eq_nil_iff]
      intro a ha
      simp [hdeps a ha]
    have hfn : List.filter isPartSizeLine gitrpmNames = [] := by
      rw [List.filter_eq_nil_iff]
      intro a ha
      simp [hnames a ha]
    have hfe : List.filter isPartSizeLine ["%end"] = [] := by
      rw [List.filter_eq_nil_iff]
      intro a ha
      rw [List.mem_singleton] at ha
      subst ha
      have hhead : ("%end" : String).data.head? = some '%' := by decide
      simp [isPartSizeLine_false_of_head hhead (by decide)]
    have hfpost : List.filter isPartSizeLine post = [] := by
      rw [List.filter_eq_nil_iff]
      intro a ha
      rcases add_customizations_lines_head hpost a ha with h' | h' | h' | h' | h' <;>
        simp [isPartSizeLine_false_of_head h' (by decide)]
    simp only [List.filter_append, hfu, hfr, hfg, hfc, hfp, hftpl, hfd, hfn, hfe, hfpost]
    simp [partSize_code_eq_spec]

theorem c2_one_part_line_witness :
    (finalKickstartLines tagFns "http://repo" [] none 0 0 ["%packages"] emptyRecipe [] []
        = Except.ok ["url http://repo", "clearpart --all --initlabel", "part / --size=0",
            "bootloader --location=none", "timezone UTC", "lang en_US.UTF-8",
            "keyboard --xlayouts us --vckeymap us", "firewall --enabled #fw",
            "%packages", "%end", "rootpw --lock"])
    ∧ (∀ l ∈ customize_ks_template tagFns ["%packages"] emptyRecipe,
        isPartSizeLine l = false)
    ∧ (List.filter isPartSizeLine
          ["url http://repo", "clearpart --all --initlabel", "part / --size=0",
            "bootloader --location=none", "timezone UTC", "lang en_US.UTF-8",
            "keyboard --xlayouts us --vckeymap us", "firewall --enabled #fw",
            "%packages", "%end", "rootpw --lock"]
        = ["part / --size=" ++ toString (partSizeSpecMiB 0 0)]) := by
  have hps : partSizeCode 0 0 = 0 := by
    rw [partSizeCode_eval]
  have hL : finalKickstartLines tagFns "http://repo" [] none 0 0 ["%packages"]
      emptyRecipe [] []
      = Except.ok ["url http://repo", "clearpart --all --initlabel", "part / --size=0",
          "bootloader --location=none", "timezone UTC", "lang en_US.UTF-8",
          "keyboard --xlayouts us --vckeymap us", "firewall --enabled #fw",
          "%packages", "%end", "rootpw --lock"] := by
    unfold finalKickstartLines
    rw [show add_customizations emptyRecipe = Except.ok ["rootpw --lock"] from rfl]
    dsimp only
    rw [hps]
    exact congrArg Except.ok (by decide)
  exact ⟨hL, by decide,
    c2_one_part_line tagFns "http://repo" [] none 0 0 ["%packages"] emptyRecipe [] [] _
      hL (by decide) (by simp) (by simp)⟩

end LoraxCompose
